import Mathlib

/-!
# Verification of the `ring` action-game prototype

Shallow embedding of the repository's combat, grass-streaming and
terrain-generation code, together with proofs settling the frozen claims.

Conventions of the embedding:
* JavaScript numbers are idealized as exact rationals (`ℚ`).
* Mutation of an object becomes a function from the old record to the new one.
* `setTimeout` calls become explicit pending-timer values returned by the
  function that schedules them (the browser event loop would fire them later).
* String state labels ("IDLE", "DEAD", ...) are kept as `String`s, animation
  actions and materials are tracked by their labels.
-/

namespace Ring

/-- A 3-component vector (`THREE.Vector3` restricted to the data the claims
need). -/
structure V3 where
  x : ℚ
  y : ℚ
  z : ℚ
deriving DecidableEq, Repr

/-! ## `PlayerEntity` (src/src/entities/PlayerEntity.js)

Fields of the player that combat touches.  `activeAction` is the label of the
animation action last passed to `fadeToAction`. -/

structure PlayerState where
  health : ℚ
  maxHealth : ℚ
  stamina : ℚ
  currentState : String
  invulnerable : Bool
  staggerTime : ℚ
  attackCooldown : ℚ
  isAttacking : Bool
  attackAnimationComplete : Bool
  currentAttack : Option String
  activeAction : String
  attackPower : ℚ
  position : V3
deriving DecidableEq, Repr

/-- `PlayerEntity.fadeToAction`: records the new active animation action. -/
def PlayerState.fadeToAction (p : PlayerState) (action : String) : PlayerState :=
  { p with activeAction := action }

/-- `PlayerEntity.getStaggered`. -/
def PlayerState.getStaggered (p : PlayerState) : PlayerState :=
  ({ p with currentState := "STAGGERED", staggerTime := 1/2 }).fadeToAction "block"

/-- `PlayerEntity.die`. -/
def PlayerState.die (p : PlayerState) : PlayerState :=
  ({ p with currentState := "DEAD" }).fadeToAction "death"

/-- `PlayerEntity.takeDamage` (PlayerEntity.js lines 195–212).  The source's
`this.health -= damage` followed by the `this.health <= 0` test is inlined. -/
def PlayerState.takeDamage (p : PlayerState) (damage : ℚ) : PlayerState :=
  if p.invulnerable || p.currentState == "DEAD" then p
  else if p.health - damage ≤ 0 then
    ({ p with health := 0 }).die
  else
    ({ p with health := p.health - damage }).getStaggered

/-- A whole sequence of `takeDamage` calls on the player. -/
def PlayerState.takeDamages (p : PlayerState) (ds : List ℚ) : PlayerState :=
  ds.foldl PlayerState.takeDamage p

/-! ## `EnemyEntity` (src/unnamed/part_007) -/

/-- An action the enemy schedules with `setTimeout` inside `takeDamage`:
restoring its default material after 200 ms, or leaving the STAGGERED state
for CHASE after 1000 ms. -/
inductive EnemyTimerAction where
  | restoreMaterialIfNotDead
  | staggerRecoverToChase
deriving DecidableEq, Repr

/-- A pending `setTimeout` scheduled by the enemy (delay in milliseconds). -/
structure EnemyTimer where
  delayMs : ℚ
  action : EnemyTimerAction
deriving DecidableEq, Repr

structure EnemyState where
  health : ℚ
  maxHealth : ℚ
  isHostile : Bool
  currentState : String
  attackCooldown : ℚ
  material : String
  currentAction : Option String
  position : V3
deriving DecidableEq, Repr

/-- `EnemyEntity.playAnimation`: records the animation action now playing. -/
def EnemyState.playAnimation (e : EnemyState) (name : String) : EnemyState :=
  { e with currentAction := some name }

/-- `EnemyEntity.setState` (the switch only adds work for "ATTACK"). -/
def EnemyState.setState (e : EnemyState) (newState : String) : EnemyState :=
  if newState == "ATTACK" then
    { e with currentState := newState, attackCooldown := 0 }
  else { e with currentState := newState }

/-- `EnemyEntity.becomeHostile`. -/
def EnemyState.becomeHostile (e : EnemyState) : EnemyState :=
  if e.isHostile then e
  else ({ e with isHostile := true }).setState "AWARE"

/-- `EnemyEntity.die`. -/
def EnemyState.die (e : EnemyState) : EnemyState :=
  { (e.setState "DEAD").playAnimation "death" with material := "dead" }

/-- `EnemyEntity.takeDamage` (part_007 lines 345–386).  Returns the updated
enemy together with the timers the call schedules via `setTimeout`; the
source's `this.data.health -= damage` and the material change are inlined
into each branch.  Note that health is never clamped at zero. -/
def EnemyState.takeDamage (e : EnemyState) (damage : ℚ) :
    EnemyState × List EnemyTimer :=
  if e.currentState == "DEAD" then (e, [])
  else if e.health - damage ≤ 0 then
    (({ e with
        health := e.health - damage,
        material := "damaged" }).die,
      [⟨200, EnemyTimerAction.restoreMaterialIfNotDead⟩])
  else if damage ≥ 20 then
    ((({ e with
        health := e.health - damage,
        material := "damaged" }).setState "STAGGERED").playAnimation "hit",
      [⟨200, EnemyTimerAction.restoreMaterialIfNotDead⟩,
        ⟨1000, EnemyTimerAction.staggerRecoverToChase⟩])
  else
    (({ e with
        health := e.health - damage,
        material := "damaged" }).becomeHostile,
      [⟨200, EnemyTimerAction.restoreMaterialIfNotDead⟩])

/-- A live enemy used in the examples below: health 5, not yet hostile. -/
def weakEnemy : EnemyState :=
  { health := 5, maxHealth := 500, isHostile := false, currentState := "IDLE",
    attackCooldown := 0, material := "default", currentAction := none,
    position := ⟨0, 0, 0⟩ }

/-- A fresh player as constructed in PlayerEntity.js. -/
def freshPlayer : PlayerState :=
  { health := 100, maxHealth := 100, stamina := 100, currentState := "IDLE",
    invulnerable := false, staggerTime := 0, attackCooldown := 0,
    isAttacking := false, attackAnimationComplete := true,
    currentAttack := none, activeAction := "idle", attackPower := 25,
    position := ⟨0, 0, 0⟩ }

/-! ## `CombatManager` (src/unnamed/part_004)

Entities are registered in a list; the JS object identity used by
`hitbox.owner === entity` is modelled by the entity's index in that list.
Hitbox ids equal the index at creation (`id: this.hitboxes.length`) and
hitboxes are never removed, so list indices are stable and events are tagged
with the hitbox index.  `THREE.Box3.intersectsBox` is translated literally.
A fresh `new THREE.Box3()` is empty (min +∞ / max −∞) and intersects
nothing; it is modelled as `none`.  The square-root normalisation used for
knockback cannot be expressed in `ℚ`, so the normalising map is a parameter
`kn` of the stepping functions, quantified in the theorems. -/

def V3.add (a b : V3) : V3 := ⟨a.x + b.x, a.y + b.y, a.z + b.z⟩

def V3.sub (a b : V3) : V3 := ⟨a.x - b.x, a.y - b.y, a.z - b.z⟩

def V3.smul (v : V3) (k : ℚ) : V3 := ⟨v.x * k, v.y * k, v.z * k⟩

structure Box3 where
  min : V3
  max : V3
deriving DecidableEq, Repr

/-- `THREE.Box3.setFromCenterAndSize`. -/
def Box3.setFromCenterAndSize (center size : V3) : Box3 :=
  ⟨center.sub (size.smul (1/2)), center.add (size.smul (1/2))⟩

/-- `THREE.Box3.intersectsBox` (`a` is `this`, `b` the argument). -/
def Box3.intersects (a b : Box3) : Bool :=
  !(decide (b.max.x < a.min.x) || decide (b.min.x > a.max.x) ||
    decide (b.max.y < a.min.y) || decide (b.min.y > a.max.y) ||
    decide (b.max.z < a.min.z) || decide (b.min.z > a.max.z))

/-- The player or enemy object behind a registered combat entity. -/
inductive EntityData where
  | player (p : PlayerState)
  | enemy (e : EnemyState)
deriving DecidableEq, Repr

/-- An entity as the combat manager sees it.  `hasModel` is the truthiness of
`entity.model`; `geomMin`/`geomMax` are the model-space bounds of the mesh, so
`THREE.Box3.setFromObject(entity.model)` is the world box
`position + geomMin .. position + geomMax`. -/
structure ManagedEntity where
  data : EntityData
  hasModel : Bool
  geomMin : V3
  geomMax : V3
deriving DecidableEq, Repr

def ManagedEntity.position (ent : ManagedEntity) : V3 :=
  match ent.data with
  | .player p => p.position
  | .enemy e => e.position

def ManagedEntity.setPosition (ent : ManagedEntity) (v : V3) : ManagedEntity :=
  match ent.data with
  | .player p => { ent with data := .player { p with position := v } }
  | .enemy e => { ent with data := .enemy { e with position := v } }

def ManagedEntity.currentState (ent : ManagedEntity) : String :=
  match ent.data with
  | .player p => p.currentState
  | .enemy e => e.currentState

def ManagedEntity.health (ent : ManagedEntity) : ℚ :=
  match ent.data with
  | .player p => p.health
  | .enemy e => e.health

/-- `entity.takeDamage(damage)` as dispatched by `handleHit`; enemies also
return the timers they schedule. -/
def ManagedEntity.takeDamage (ent : ManagedEntity) (d : ℚ) :
    ManagedEntity × List EnemyTimer :=
  match ent.data with
  | .player p => ({ ent with data := .player (p.takeDamage d) }, [])
  | .enemy e => ({ ent with data := .enemy (e.takeDamage d).1 }, (e.takeDamage d).2)

/-- The world-space hurtbox `new THREE.Box3().setFromObject(entity.model)`. -/
def ManagedEntity.worldBox (ent : ManagedEntity) : Box3 :=
  ⟨ent.position.add ent.geomMin, ent.position.add ent.geomMax⟩

/-- A hitbox as created by `CombatManager.createHitbox`.  `owner` is the index
of the owning entity (or `none` when `options.owner` is absent).  `collider`
is `none` while the box is still the empty `new THREE.Box3()`. -/
structure Hitbox where
  id : ℕ
  offset : V3
  size : V3
  damage : ℚ
  knockback : ℚ
  duration : ℚ
  timeRemaining : ℚ
  collider : Option Box3
  owner : Option ℕ
  active : Bool
deriving DecidableEq, Repr

/-- The state of the hitbox's parent object when an update runs: whether the
parent is non-null with a position, whether it has `localToWorld` (the
transform `toWorld`), and its `position`. -/
structure ParentInfo where
  present : Bool
  hasLocalToWorld : Bool
  toWorld : V3 → V3
  pos : V3

/-- `hitbox.update(delta)` from `createHitbox` (part_004 lines 104–132). -/
def hitboxUpdate (pi : ParentInfo) (delta : ℚ) (hb : Hitbox) : Hitbox :=
  if hb.timeRemaining - delta ≤ 0 then
    { hb with timeRemaining := hb.timeRemaining - delta, active := false }
  else if pi.present then
    { hb with
      timeRemaining := hb.timeRemaining - delta,
      collider := some (Box3.setFromCenterAndSize
        (if pi.hasLocalToWorld then pi.toWorld hb.offset
         else pi.pos.add hb.offset) hb.size) }
  else { hb with timeRemaining := hb.timeRemaining - delta }

/-- `hitbox.collider.intersectsBox(entityBox)`; an uninitialised collider
(empty box) intersects nothing. -/
def hitboxIntersects (hb : Hitbox) (entityBox : Box3) : Bool :=
  match hb.collider with
  | none => false
  | some c => c.intersects entityBox

structure HitEvent where
  hitboxIdx : ℕ
  entityIdx : ℕ
  damage : ℚ
deriving DecidableEq, Repr

/-- Combat-manager state: registered entities, hitboxes, and the pending
`setTimeout`s scheduled by entity damage reactions (entity index, timer). -/
structure CombatState where
  entities : List ManagedEntity
  hitboxes : List Hitbox
  timers : List (ℕ × EnemyTimer)
deriving Repr

/-- Replace the `n`-th element of a list by `f` of itself. -/
def modifyAt (l : List α) (n : ℕ) (f : α → α) : List α :=
  match l[n]? with
  | none => l
  | some a => l.set n (f a)

/-- `CombatManager.handleHit(hitbox, entity)` (part_004 lines 190–223):
deactivate the hitbox, apply damage, then knockback.  `kn` is the
`Vector3.normalize` map, `parentPos` the hitbox parent's position. -/
def handleHit (kn : V3 → V3) (parentPos : V3) (s : CombatState)
    (i j : ℕ) : CombatState :=
  let s1 : CombatState :=
    { s with hitboxes := modifyAt s.hitboxes i (fun hb => { hb with active := false }) }
  match s1.hitboxes[i]?, s1.entities[j]? with
  | some hb, some ent =>
    let ent1 := (ent.takeDamage hb.damage).1
    let ts := (ent.takeDamage hb.damage).2
    let ent2 :=
      if hb.knockback > 0 && ent1.hasModel then
        ent1.setPosition (ent1.position.add
          ((kn (ent1.position.sub parentPos)).smul hb.knockback))
      else ent1
    { s1 with
      entities := s1.entities.set j ent2,
      timers := s1.timers ++ ts.map (fun t => (j, t)) }
  | _, _ => s1

/-- One iteration of the inner `this.entities.forEach` of `checkCollisions`
for the hitbox at index `i` (conditions read from the current state, as in
the source; the hitbox's `active` flag is *not* re-checked here). -/
def entityStep (kn : V3 → V3) (parentPos : V3) (i : ℕ)
    (acc : CombatState × List HitEvent) (j : ℕ) : CombatState × List HitEvent :=
  match acc.1.hitboxes[i]?, acc.1.entities[j]? with
  | some hb, some ent =>
    if hb.owner == some j then acc
    else if !ent.hasModel || ent.currentState == "DEAD" then acc
    else if hitboxIntersects hb ent.worldBox then
      (handleHit kn parentPos acc.1 i j, acc.2 ++ [⟨i, j, hb.damage⟩])
    else acc
  | _, _ => acc

/-- One iteration of the outer `this.hitboxes.forEach` of `checkCollisions`:
skip the hitbox when its `active` flag is already clear, otherwise run the
inner entity loop. -/
def hitboxStep (kn : V3 → V3) (env : ℕ → ParentInfo)
    (acc : CombatState × List HitEvent) (i : ℕ) : CombatState × List HitEvent :=
  match acc.1.hitboxes[i]? with
  | some hb =>
    if hb.active then
      (List.range acc.1.entities.length).foldl (entityStep kn (env i).pos i) acc
    else acc
  | none => acc

/-- `CombatManager.checkCollisions` (part_004 lines 159–183), returning the
final state and the list of `handleHit` invocations in order.  `env i` is the
parent-object state of the hitbox at index `i`. -/
def checkCollisions (kn : V3 → V3) (env : ℕ → ParentInfo)
    (s0 : CombatState) : CombatState × List HitEvent :=
  (List.range s0.hitboxes.length).foldl (hitboxStep kn env) (s0, [])

/-- `CombatManager.update(deltaTime)` (part_004 lines 55–73): update every
active hitbox, then check collisions.  (`updateEffects` only filters the
always-empty `activeEffects` list and is omitted; debug mode is off.) -/
def CombatState.update (kn : V3 → V3) (env : ℕ → ParentInfo) (delta : ℚ)
    (s : CombatState) : CombatState × List HitEvent :=
  checkCollisions kn env
    { s with
      hitboxes := s.hitboxes.mapIdx
        (fun i hb => if hb.active then hitboxUpdate (env i) delta hb else hb) }

/-- A sequence of per-frame `update` calls; returns the final state and the
hit events of each frame. -/
def CombatState.runUpdates (kn : V3 → V3)
    (steps : List ((ℕ → ParentInfo) × ℚ)) (s : CombatState) :
    CombatState × List (List HitEvent) :=
  match steps with
  | [] => (s, [])
  | st :: rest =>
    ((CombatState.runUpdates kn rest (CombatState.update kn st.1 st.2 s).1).1,
      (CombatState.update kn st.1 st.2 s).2 ::
        (CombatState.runUpdates kn rest (CombatState.update kn st.1 st.2 s).1).2)

/-- `CombatManager.createHitbox` (part_004 lines 86–153) without the
debug-mode branch: appends a fresh, active hitbox whose id is the current
list length and whose collider is still the empty box. -/
def CombatState.createHitbox (s : CombatState) (offset size : V3)
    (damageValue duration : ℚ) (owner : Option ℕ) (knockback : ℚ) :
    CombatState :=
  { s with
    hitboxes := s.hitboxes ++
      [{ id := s.hitboxes.length, offset := offset, size := size,
         damage := damageValue, knockback := knockback, duration := duration,
         timeRemaining := duration, collider := none, owner := owner,
         active := true }] }

/-- The event the pair (hitbox `i` with data `hb`, entity `j`) contributes
when every skip condition and the intersection are evaluated on the fixed
state `s`. -/
def staticPairCheck (s : CombatState) (hb : Hitbox) (i j : ℕ) :
    Option HitEvent :=
  match s.entities[j]? with
  | some ent =>
    if hb.owner == some j then none
    else if !ent.hasModel || ent.currentState == "DEAD" then none
    else if hitboxIntersects hb ent.worldBox then some ⟨i, j, hb.damage⟩
    else none
  | none => none

/-- The events hitbox `i` contributes on the fixed state `s`. -/
def staticHitboxEvents (s : CombatState) (i : ℕ) : List HitEvent :=
  match s.hitboxes[i]? with
  | some hb =>
    if hb.active then
      (List.range s.entities.length).filterMap (staticPairCheck s hb i)
    else []
  | none => []

/-- The pairs `checkCollisions` would report if every skip condition and every
intersection were evaluated on the state as it is when the pass starts (the
"naive all-pairs" description of the spec). -/
def staticHits (s : CombatState) : List HitEvent :=
  (List.range s.hitboxes.length).flatMap (staticHitboxEvents s)

/-- Total damage of the currently active hitboxes in a hitbox list. -/
def sumActiveDamageL (l : List Hitbox) : ℚ :=
  ((l.filter (fun hb => hb.active)).map (fun hb => hb.damage)).sum

/-- Total damage of the currently active hitboxes of a manager state. -/
def sumActiveDamage (s : CombatState) : ℚ :=
  sumActiveDamageL s.hitboxes

/-- Simulation invariant between the state `s0` at the start of a
`checkCollisions` pass and an intermediate state `s` of that pass, for
knockback-free, nonnegative-damage hitboxes: entity hurtboxes, model presence
and aliveness are unchanged, and a live entity has lost at most the total
damage of the hitboxes deactivated so far. -/
structure PassInv (s0 s : CombatState) : Prop where
  entsLen : s.entities.length = s0.entities.length
  hbsLen : s.hitboxes.length = s0.hitboxes.length
  dmgs : ∀ hb ∈ s.hitboxes, 0 ≤ hb.damage ∧ hb.knockback = 0
  ents : ∀ (j : ℕ) (ent0 : ManagedEntity), s0.entities[j]? = some ent0 →
    ∃ ent, s.entities[j]? = some ent ∧
      ent.hasModel = ent0.hasModel ∧ ent.position = ent0.position ∧
      ent.geomMin = ent0.geomMin ∧ ent.geomMax = ent0.geomMax ∧
      (ent0.currentState = "DEAD" → ent = ent0) ∧
      (ent0.currentState ≠ "DEAD" → ent.currentState ≠ "DEAD" ∧
        ent0.health - (sumActiveDamage s0 - sumActiveDamage s) ≤ ent.health)

/-- Observer: the `active` flag of the hitbox at index `i` (`false` when the
index is out of range). -/
def hbActive (s : CombatState) (i : ℕ) : Bool :=
  match s.hitboxes[i]? with
  | some hb => hb.active
  | none => false

/-- How many frames of a run contain at least one hit event of hitbox `i`. -/
def passCount (i : ℕ) (evss : List (List HitEvent)) : ℕ :=
  evss.countP (fun evs => evs.any (fun ev => ev.hitboxIdx == i))

/-- An enemy combat entity with a unit-cube hurtbox at `pos`. -/
def cubeEnemy (pos : V3) : ManagedEntity :=
  { data := EntityData.enemy
      { health := 100, maxHealth := 500, isHostile := false,
        currentState := "IDLE", attackCooldown := 0, material := "default",
        currentAction := none, position := pos },
    hasModel := true, geomMin := ⟨-1, -1, -1⟩, geomMax := ⟨1, 1, 1⟩ }

/-- An active hitbox whose collider spans `-10..10` on every axis, covering
both enemies of `twoVictimState`; no owner, no knockback, damage 1. -/
def wideHitbox : Hitbox :=
  { id := 0, offset := ⟨0, 0, 0⟩, size := ⟨20, 20, 20⟩, damage := 1,
    knockback := 0, duration := 1, timeRemaining := 1,
    collider := some ⟨⟨-10, -10, -10⟩, ⟨10, 10, 10⟩⟩, owner := none,
    active := true }

/-- A manager state with one active hitbox overlapping two live entities. -/
def twoVictimState : CombatState :=
  { entities := [cubeEnemy ⟨0, 0, 0⟩, cubeEnemy ⟨2, 0, 0⟩],
    hitboxes := [wideHitbox], timers := [] }

/-- A trivial parent object at the origin without `localToWorld`. -/
def originParent : ParentInfo :=
  { present := true, hasLocalToWorld := false, toWorld := fun v => v,
    pos := ⟨0, 0, 0⟩ }

/-- During the inner entity loop of hitbox `i`, entity `j` is either still
untouched or has been hit exactly once, by hitbox `i`'s damage `d`, while it
was alive and survived. -/
def entHitOnce (sPre s : CombatState) (d : ℚ) (j : ℕ) : Prop :=
  s.entities[j]? = sPre.entities[j]? ∨
  ∃ entP, sPre.entities[j]? = some entP ∧ entP.currentState ≠ "DEAD" ∧
    0 < entP.health - d ∧ s.entities[j]? = some (entP.takeDamage d).1

/-- Invariant of the inner entity loop of hitbox `i` relative to the state
`sPre` at the start of that loop: either nothing has been hit yet, or
hitbox `i` has been deactivated and each entity has been hit at most once. -/
def InnerInv (sPre s : CombatState) (i : ℕ) (d : ℚ) : Prop :=
  (s.entities = sPre.entities ∧ s.hitboxes = sPre.hitboxes) ∨
  (s.hitboxes = modifyAt sPre.hitboxes i (fun hb => { hb with active := false }) ∧
    s.entities.length = sPre.entities.length ∧
    ∀ j : ℕ, entHitOnce sPre s d j)

/-! ## `PlayerEntity.attack` and its `setTimeout` (PlayerEntity.js 118–153)

The light attack never calls `createHitbox` itself: it schedules a
`setTimeout` callback 300 ms into the animation, and only that callback
(firing between frames, after the current synchronous update has returned)
creates the hitbox. -/

/-- The `createHitbox` arguments captured by the scheduled callback. -/
structure HitboxSpec where
  offset : V3
  size : V3
  damageValue : ℚ
  duration : ℚ
  knockback : ℚ
deriving DecidableEq, Repr

/-- A pending `setTimeout` scheduled by an attack (delay in ms). -/
structure AttackTimer where
  delayMs : ℚ
  spec : HitboxSpec
deriving DecidableEq, Repr

/-- The hitbox parameters of the light attack: offset `(0, 1, −1.5)`, size
`(1.5, 1, 2)`, damage `attackPower`, duration 0.2 s, knockback 2. -/
def lightAttackSpec (attackPower : ℚ) : HitboxSpec :=
  ⟨⟨0, 1, -3/2⟩, ⟨3/2, 1, 2⟩, attackPower, 1/5, 2⟩

/-- `PlayerEntity.attack()` acting on the player and its (optional) combat
manager.  The manager is returned untouched: the attack only schedules the
timer that will create the hitbox 300 ms later. -/
def PlayerState.attackStep (p : PlayerState) (m : Option CombatState) :
    PlayerState × Option CombatState × List AttackTimer :=
  if p.isAttacking || p.currentState == "STAGGERED" ||
      p.currentState == "DEAD" || decide (p.attackCooldown > 0) then
    (p, m, [])
  else
    ({ p with
        isAttacking := true, attackAnimationComplete := false,
        currentState := "ATTACKING", currentAttack := some "light",
        activeAction := "attack", attackCooldown := 4/5 },
      m,
      if m.isSome then [⟨300, lightAttackSpec p.attackPower⟩] else [])

/-- Firing a scheduled attack timer: the captured `createHitbox` call runs
against the manager (`ownerIdx` is the index of the attacking player). -/
def fireAttackTimer (t : AttackTimer) (ownerIdx : Option ℕ)
    (m : CombatState) : CombatState :=
  m.createHitbox t.spec.offset t.spec.size t.spec.damageValue t.spec.duration
    ownerIdx t.spec.knockback

/-- A combat manager with nothing registered yet. -/
def emptyCombat : CombatState := ⟨[], [], []⟩

/-! ## `GrassComponent` (src/src/components/GrassComponent.js, first class)

Scene objects (instanced-grass meshes and debug markers) are tracked by
identity only, as numeric ids handed out by a counter; `scene` is the list of
ids currently added to the THREE scene.  The JS `Map` keyed by the string
`"gx,gz"` is an insertion-ordered association list keyed by the integer pair
(the string encoding is injective on integer pairs).  `Math.sin`/`Math.cos`
are passed in as function parameters `sinQ`/`cosQ`; the blade placement
randomness only affects instance transforms inside a mesh and is invisible at
this level. -/

structure GrassPatch where
  mesh : ℕ
  debugMarker : ℕ
  gridX : ℤ
  gridZ : ℤ
  worldX : ℚ
  worldZ : ℚ
deriving DecidableEq, Repr

structure GrassState where
  scene : List ℕ
  activePatches : List ((ℤ × ℤ) × GrassPatch)
  nextId : ℕ
  heightMapPresent : Bool
  terrainSize : ℚ
  patchSize : ℚ
  gridSize : ℤ
  minHeight : ℚ
  maxHeight : ℚ
  heightOffset : ℚ
  playerObject : Option V3
deriving Repr

/-- `this.activePatches.get(key)` / `.has(key)`. -/
def GrassState.getPatch (g : GrassState) (key : ℤ × ℤ) : Option GrassPatch :=
  List.lookup key g.activePatches

/-- `GrassComponent.sampleHeight` (first class, lines 508–560): outside the
terrain bounds it returns `minHeight + heightOffset`; inside it uses the
sine-based fallback formula. -/
def GrassState.sampleHeight (g : GrassState) (sinQ cosQ : ℚ → ℚ)
    (worldX worldZ : ℚ) : ℚ :=
  if !g.heightMapPresent then g.heightOffset
  else
    let uvX := (worldX + g.terrainSize / 2) / g.terrainSize
    let uvZ := (worldZ + g.terrainSize / 2) / g.terrainSize
    let clampedUvX := max 0 (min 1 uvX)
    let clampedUvZ := max 0 (min 1 uvZ)
    if uvX ≠ clampedUvX ∨ uvZ ≠ clampedUvZ then g.minHeight + g.heightOffset
    else
      let heightNoise :=
        sinQ (worldX * (1/5)) * cosQ (worldZ * (1/5)) * (1/2) + 1/2
      g.minHeight + heightNoise * g.maxHeight + g.heightOffset

/-- `GrassComponent.createPatch(gridX, gridZ)` (lines 246–366): returns the
existing patch unchanged if the key is present; otherwise adds a debug
marker and an instanced mesh to the scene and registers the new patch. -/
def GrassState.createPatch (g : GrassState) (gridX gridZ : ℤ) :
    GrassState × Option GrassPatch :=
  match g.getPatch (gridX, gridZ) with
  | some patch => (g, some patch)
  | none =>
    let worldX := (gridX : ℚ) * g.patchSize - g.terrainSize / 2
    let worldZ := (gridZ : ℚ) * g.patchSize - g.terrainSize / 2
    let patch : GrassPatch :=
      { mesh := g.nextId + 1, debugMarker := g.nextId,
        gridX := gridX, gridZ := gridZ, worldX := worldX, worldZ := worldZ }
    ({ g with
        scene := g.scene ++ [g.nextId, g.nextId + 1],
        activePatches := g.activePatches ++ [((gridX, gridZ), patch)],
        nextId := g.nextId + 2 },
      some patch)

/-- `GrassComponent.removePatch(key)` (lines 374–389): removes the patch's
mesh and debug marker from the scene and deletes the map entry. -/
def GrassState.removePatch (g : GrassState) (key : ℤ × ℤ) : GrassState :=
  match g.getPatch key with
  | none => g
  | some patch =>
    { g with
      scene := (g.scene.erase patch.mesh).erase patch.debugMarker,
      activePatches :=
        g.activePatches.filter (fun kv => !(kv.1 == key)) }

/-- The grid cells within render distance 2 of the player's cell that lie
inside the grid, in the order the double loop visits them. -/
def gridCellsAround (gridSize : ℤ) (pgx pgz : ℤ) : List (ℤ × ℤ) :=
  ([-2, -1, 0, 1, 2] : List ℤ).flatMap (fun dx =>
    ([-2, -1, 0, 1, 2] : List ℤ).filterMap (fun dz =>
      if 0 ≤ pgx + dx ∧ pgx + dx < gridSize ∧
          0 ≤ pgz + dz ∧ pgz + dz < gridSize then
        some (pgx + dx, pgz + dz)
      else none))

/-- The creation loop of `updatePatches`: for each in-range cell, create its
patch unless it already exists. -/
def createCellsFold (cells : List (ℤ × ℤ)) (g : GrassState) : GrassState :=
  cells.foldl
    (fun g c => if (g.getPatch c).isSome then g else (g.createPatch c.1 c.2).1)
    g

/-- The removal loop of `updatePatches`: for each key of the snapshot `ks`,
remove the patch unless its key is among the in-range `cells`. -/
def removeKeysFold (cells ks : List (ℤ × ℤ)) (g : GrassState) : GrassState :=
  ks.foldl (fun g key => if cells.contains key then g else g.removePatch key) g

/-- `GrassComponent.updatePatches` (lines 394–448): no-op without a player;
otherwise force-create the player's cell, create every in-range in-bounds
cell, then remove every active patch whose key is not in that set. -/
def GrassState.updatePatches (g : GrassState) : GrassState :=
  match g.playerObject with
  | none => g
  | some pos =>
    let playerGridX : ℤ := ⌊(pos.x + g.terrainSize / 2) / g.patchSize⌋
    let playerGridZ : ℤ := ⌊(pos.z + g.terrainSize / 2) / g.patchSize⌋
    let g1 := (g.createPatch playerGridX playerGridZ).1
    let cells := gridCellsAround g.gridSize playerGridX playerGridZ
    let g2 := createCellsFold cells g1
    removeKeysFold cells (g2.activePatches.map (fun kv => kv.1)) g2

/-- Well-formedness of a grass state: the scene has no duplicate object ids,
all ids are below the counter, and map keys are distinct. -/
def GrassWF (g : GrassState) : Prop :=
  g.scene.Nodup ∧ (∀ id ∈ g.scene, id < g.nextId) ∧
  (g.activePatches.map (fun kv => kv.1)).Nodup

/-! ## `PlayerEntity.sampleHeight` (PlayerEntity.js lines 397–453)

The terrain fields that `setTerrainData` installs on the player, as read by
`sampleHeight`.  The heightmap's `image.data` array is a list of sample
values (already normalised floats when `isFloat`, byte values otherwise); an
out-of-range access — impossible for well-formed images — is modelled as 0. -/

structure HeightImage where
  width : ℕ
  height : ℕ
  data : List ℚ
  isFloat : Bool
deriving Repr

structure PlayerTerrain where
  heightmapPresent : Bool
  image : Option HeightImage
  terrainSize : ℚ
  minHeight : ℚ
  maxHeight : ℚ
deriving Repr

/-- `PlayerEntity.sampleHeight(worldX, worldZ)`. -/
def playerSampleHeight (t : PlayerTerrain) (sinQ cosQ : ℚ → ℚ)
    (worldX worldZ : ℚ) : ℚ :=
  if !t.heightmapPresent then 0
  else
    let uvX := (worldX + t.terrainSize / 2) / t.terrainSize
    let uvZ := (worldZ + t.terrainSize / 2) / t.terrainSize
    let clampedUvX := max 0 (min 1 uvX)
    let clampedUvZ := max 0 (min 1 uvZ)
    if uvX ≠ clampedUvX ∨ uvZ ≠ clampedUvZ then t.minHeight
    else
      match t.image with
      | some img =>
        let width : ℕ := if img.width = 0 then 256 else img.width
        let height : ℕ := if img.height = 0 then 256 else img.height
        let pixelX : ℕ := (⌊clampedUvX * ((width : ℚ) - 1)⌋).toNat
        let pixelZ : ℕ := (⌊clampedUvZ * ((height : ℚ) - 1)⌋).toNat
        let pixelIndex := pixelZ * width + pixelX
        let heightValue :=
          if img.isFloat then img.data.getD pixelIndex 0
          else img.data.getD pixelIndex 0 / 255
        t.minHeight + heightValue * (t.maxHeight - t.minHeight)
      | none =>
        let heightNoise :=
          sinQ (worldX * (1/5)) * cosQ (worldZ * (1/5)) * (1/2) + 1/2
        t.minHeight + heightNoise * (t.maxHeight - t.minHeight)

/-! ## Grass LOD (GrassComponent.js second class, lines 594, 1011–1047,
1097–1140)

`GRASS_LOD_DIST` is the single distance constant.  `createMesh` picks the
low-detail geometry exactly when the camera distance exceeds it, and
`updateLOD` recomputes the same comparison each frame and switches the mesh
whenever its stored flag disagrees.  The per-mesh LOD state is one Bool, and
the next value of that flag is a function of the current flag and the
camera distance. -/

def GRASS_LOD_DIST : ℚ := 7

/-- `createMesh(distToCamera)` line 1013: the LOD flag of a new mesh. -/
def createMeshIsLowDetail (distToCamera : ℚ) : Bool :=
  decide (distToCamera > GRASS_LOD_DIST)

/-- One mesh's step of `updateLOD` (lines 1102–1128): the stored
`isLowDetail` flag after the pass, given the camera distance. -/
def updateLODNext (isLowDetail : Bool) (distToCamera : ℚ) : Bool :=
  let shouldBeLowDetail := decide (distToCamera > GRASS_LOD_DIST)
  if isLowDetail != shouldBeLowDetail then shouldBeLowDetail else isLowDetail

/-- A small player terrain record used as concrete input below. -/
def samplePT : PlayerTerrain :=
  { heightmapPresent := true, image := none, terrainSize := 100,
    minHeight := 0, maxHeight := 20 }

/-- A small populated grass state used as concrete input below. -/
def sampleGrass : GrassState :=
  { scene := [0, 1], activePatches := [((1, 1), ⟨1, 0, 1, 1, -45, -45⟩)],
    nextId := 2, heightMapPresent := true, terrainSize := 100,
    patchSize := 10, gridSize := 10, minHeight := 0, maxHeight := 10,
    heightOffset := 0, playerObject := some ⟨0, 0, 0⟩ }

/-! ## Heightmap generators (heightmapGenerator.js)

The file has two `generateHeightmap` implementations.  The first (lines
11–65) combines sine/cosine octaves and touches no random state.  The
second (lines 108–133) calls `createNoise2D()` from the simplex-noise
package with no argument, so the noise function is built from the default
`Math.random`: the hidden random state is modelled as a stream
`random : ℕ → ℚ` of the successive `Math.random()` values in [0, 1).

`createNoise2D`/`buildPermutationTable` below are translated from
simplex-noise v4 (the installed dependency): the permutation table applies
one random swap per index, and `noise2D` is 2-D simplex noise with skew
constants F2 = (√3 − 1)/2 and G2 = (3 − √3)/6.  All arithmetic the noise
path performs stays inside ℚ[√3] = { a + b·√3 }, represented exactly by
pairs `QS`; `Math.floor` and comparisons on ℚ[√3] are exact (`QS.floor`
uses ⌊a⌋ + ⌊b√3⌋ plus a one-step correction, with ⌊b√3⌋ = ⌊√⌊3b²⌋⌋ for
b ≥ 0, valid because √(3b²) is irrational for b ≠ 0). -/

/- ℚ[√3] numbers: a + b·√3 -/
structure QS where
  a : ℚ
  b : ℚ
deriving DecidableEq, Repr

def QS.ofQ (q : ℚ) : QS := ⟨q, 0⟩

def QS.add (x y : QS) : QS := ⟨x.a + y.a, x.b + y.b⟩

def QS.sub (x y : QS) : QS := ⟨x.a - y.a, x.b - y.b⟩

def QS.mul (x y : QS) : QS :=
  ⟨x.a * y.a + 3 * x.b * y.b, x.a * y.b + x.b * y.a⟩

def QS.divQ (x : QS) (q : ℚ) : QS := ⟨x.a / q, x.b / q⟩

/- 0 < a + b√3, by rational sign analysis -/
def QS.pos (x : QS) : Bool :=
  if 0 ≤ x.a then
    (if 0 ≤ x.b then decide (0 < x.a ∨ 0 < x.b)
     else decide (3 * x.b ^ 2 < x.a ^ 2))
  else
    (if 0 ≤ x.b then decide (x.a ^ 2 < 3 * x.b ^ 2) else false)

def QS.nonneg (x : QS) : Bool := x.pos || decide (x.a = 0 ∧ x.b = 0)

def QS.lt (x y : QS) : Bool := (y.sub x).pos

/- ⌊b·√3⌋ -/
def sqrt3FloorQ (b : ℚ) : ℤ :=
  if 0 ≤ b then (Nat.sqrt (⌊3 * b ^ 2⌋).toNat : ℤ)
  else -(Nat.sqrt (⌊3 * b ^ 2⌋).toNat : ℤ) - 1

/- ⌊a + b√3⌋ -/
def QS.floor (x : QS) : ℤ :=
  let z0 : ℤ := ⌊x.a⌋ + sqrt3FloorQ x.b
  if QS.nonneg ⟨x.a - (z0 + 1), x.b⟩ then z0 + 1 else z0

def F2 : QS := ⟨-1/2, 1/2⟩

def G2 : QS := ⟨1/2, -1/6⟩

def grad2 : List ℚ :=
  [1, 1, -1, 1, 1, -1, -1, -1, 1, 0, -1, 0, 1, 0, -1, 0, 0, 1, 0, -1,
    0, 1, 0, -1]

def grad2x (v : ℕ) : ℚ := grad2.getD (v % 12 * 2) 0

def grad2y (v : ℕ) : ℚ := grad2.getD (v % 12 * 2 + 1) 0

def swapT (p : ℕ → ℕ) (i r : ℕ) : ℕ → ℕ :=
  fun k => if k = i then p r else if k = r then p i else p k

def permInit : ℕ → ℕ := fun k => if k < 256 then k else 0

def permSwaps (random : ℕ → ℚ) : ℕ → ℕ :=
  (List.range 255).foldl
    (fun p i => swapT p i (i + (⌊random i * (256 - (i : ℚ))⌋).toNat))
    permInit

def buildPermutationTable (random : ℕ → ℚ) : ℕ → ℕ :=
  fun k => if k < 256 then permSwaps random k else permSwaps random (k - 256)

def noise2D (perm : ℕ → ℕ) (x y : QS) : QS :=
  let s := (x.add y).mul F2
  let i : ℤ := (x.add s).floor
  let j : ℤ := (y.add s).floor
  let t := (QS.ofQ ((i : ℚ) + (j : ℚ))).mul G2
  let X0 := (QS.ofQ (i : ℚ)).sub t
  let Y0 := (QS.ofQ (j : ℚ)).sub t
  let x0 := x.sub X0
  let y0 := y.sub Y0
  let ij1 : ℕ × ℕ := if QS.lt y0 x0 then (1, 0) else (0, 1)
  let x1 := (x0.sub (QS.ofQ (ij1.1 : ℚ))).add G2
  let y1 := (y0.sub (QS.ofQ (ij1.2 : ℚ))).add G2
  let x2 := (x0.sub (QS.ofQ 1)).add (G2.mul (QS.ofQ 2))
  let y2 := (y0.sub (QS.ofQ 1)).add (G2.mul (QS.ofQ 2))
  let ii : ℕ := (Int.emod i 256).toNat
  let jj : ℕ := (Int.emod j 256).toNat
  let t0 := (QS.ofQ (1/2)).sub ((x0.mul x0).add (y0.mul y0))
  let n0 :=
    if QS.lt t0 (QS.ofQ 0) then QS.ofQ 0
    else
      let gi0 := ii + perm jj
      let t0' := t0.mul t0
      (t0'.mul t0').mul
        (((QS.ofQ (grad2x (perm gi0))).mul x0).add
          ((QS.ofQ (grad2y (perm gi0))).mul y0))
  let t1 := (QS.ofQ (1/2)).sub ((x1.mul x1).add (y1.mul y1))
  let n1 :=
    if QS.lt t1 (QS.ofQ 0) then QS.ofQ 0
    else
      let gi1 := ii + ij1.1 + perm (jj + ij1.2)
      let t1' := t1.mul t1
      (t1'.mul t1').mul
        (((QS.ofQ (grad2x (perm gi1))).mul x1).add
          ((QS.ofQ (grad2y (perm gi1))).mul y1))
  let t2 := (QS.ofQ (1/2)).sub ((x2.mul x2).add (y2.mul y2))
  let n2 :=
    if QS.lt t2 (QS.ofQ 0) then QS.ofQ 0
    else
      let gi2 := ii + 1 + perm (jj + 1)
      let t2' := t2.mul t2
      (t2'.mul t2').mul
        (((QS.ofQ (grad2x (perm gi2))).mul x2).add
          ((QS.ofQ (grad2y (perm gi2))).mul y2))
  (QS.ofQ 70).mul ((n0.add n1).add n2)

def streamA : ℕ → ℚ := fun _ => 0

def streamB : ℕ → ℚ :=
  fun n => if n = 0 then 100/256 else if n = 1 then 99/255 else 0

def generateHeightmapSimplex (random : ℕ → ℚ) (width length : ℕ)
    (scale amplitude : ℚ) (octaves : ℕ) (persistence : ℚ) : List QS :=
  let perm := buildPermutationTable random
  (List.range length).flatMap (fun y =>
    (List.range width).map (fun x =>
      let acc := (List.range octaves).foldl (fun acc i =>
        (acc.1.add ((noise2D perm (QS.ofQ ((x : ℚ) * acc.2.1))
            (QS.ofQ ((y : ℚ) * acc.2.1))).mul
            (QS.ofQ (amplitude * persistence ^ i))),
          acc.2.1 * 2, acc.2.2 + amplitude * persistence ^ i))
        (QS.ofQ 0, scale, (0 : ℚ))
      (acc.1.divQ acc.2.2).mul (QS.ofQ amplitude)))

/-- The sine-noise variant of `generateHeightmap`
(heightmapGenerator.js lines 11–65).  `sinQ`/`cosQ`/`powQ` stand for
`Math.sin`/`Math.cos`/`Math.pow`; the `random` parameter stands for the
hidden `Math.random` state, which this variant never reads.  The fold
threads (height, frequency, amplitude) exactly as the inner loop does. -/
def generateHeightmapSine (sinQ cosQ : ℚ → ℚ) (powQ : ℚ → ℚ → ℚ)
    (random : ℕ → ℚ) (size : ℕ) (scale elevation : ℚ)
    (iterations : ℕ) : List ℚ :=
  (List.range size).flatMap (fun y =>
    (List.range size).map (fun x =>
      let acc := (List.range iterations).foldl (fun acc _ =>
        let nx := (x : ℚ) * acc.2.1
        let ny := (y : ℚ) * acc.2.1
        let noise := sinQ nx * cosQ ny +
          sinQ (nx * (7/10)) * cosQ (ny * (13/10)) * (1/2)
        (acc.1 + noise * acc.2.2, acc.2.1 * 2, acc.2.2 * (1/2)))
        ((0 : ℚ), scale, (1 : ℚ))
      powQ ((acc.1 + 1) * (1/2)) elevation))

/-! ## Theorems -/

/-- C1 — counterexample.  `EnemyEntity.takeDamage` never clamps health at
zero: a live enemy with 5 health that takes 10 damage ends the call with
health −5 < 0, so "health never becomes negative" fails for enemies. -/
theorem enemy_health_goes_negative :
    ((Ring.weakEnemy.takeDamage 10).1).health < 0 := by
  simp only [Ring.weakEnemy, Ring.EnemyState.takeDamage, Ring.EnemyState.die,
    Ring.EnemyState.setState, Ring.EnemyState.playAnimation]
  simp only [String.reduceEq, beq_iff_eq, if_false, if_true, reduceIte]
  norm_num

/-- C1 — amended claim.  The player's health never becomes negative: it stays
≥ 0 after each `takeDamage` call and across any sequence of calls.  The
enemy's health is not clamped and can become negative, but whenever a
`takeDamage` call leaves the enemy in a state other than "DEAD" its health is
still positive (the enemy dies as soon as health drops to 0 or below). -/
theorem takeDamage_health_invariant :
    (∀ (p : Ring.PlayerState) (d : ℚ), 0 ≤ p.health →
        0 ≤ (p.takeDamage d).health) ∧
    (∀ (p : Ring.PlayerState) (ds : List ℚ), 0 ≤ p.health →
        0 ≤ (p.takeDamages ds).health) ∧
    (∀ (e : Ring.EnemyState) (d : ℚ),
        e.currentState = "DEAD" ∨ 0 < e.health →
        (e.takeDamage d).1.currentState = "DEAD" ∨
          0 < (e.takeDamage d).1.health) := by
  have step : ∀ (p : Ring.PlayerState) (d : ℚ), 0 ≤ p.health →
      0 ≤ (p.takeDamage d).health := by
    intro p d h
    unfold Ring.PlayerState.takeDamage Ring.PlayerState.die
      Ring.PlayerState.getStaggered Ring.PlayerState.fadeToAction
    split_ifs with h1 h2
    · exact h
    · simp
    · simp only
      linarith [not_le.mp h2]
  refine ⟨step, ?_, ?_⟩
  · intro p ds
    induction ds generalizing p with
    | nil => intro h; simpa [Ring.PlayerState.takeDamages] using h
    | cons d ds ih =>
      intro h
      simpa [Ring.PlayerState.takeDamages] using
        ih (p.takeDamage d) (step p d h)
  · intro e d h
    unfold Ring.EnemyState.takeDamage Ring.EnemyState.die
      Ring.EnemyState.becomeHostile Ring.EnemyState.setState
      Ring.EnemyState.playAnimation
    split_ifs with h1 h2 h3 h4 <;> simp_all

/-- C1 — witness for the amended claim at concrete inputs. -/
theorem takeDamage_health_invariant_witness :
    0 ≤ (Ring.freshPlayer.takeDamage 30).health ∧
    0 ≤ (Ring.freshPlayer.takeDamages [30, 50, 40]).health ∧
    ((Ring.weakEnemy.takeDamage 3).1.currentState = "DEAD" ∨
      0 < (Ring.weakEnemy.takeDamage 3).1.health) :=
  ⟨takeDamage_health_invariant.1 Ring.freshPlayer 30
      (by norm_num [Ring.freshPlayer]),
    takeDamage_health_invariant.2.1 Ring.freshPlayer [30, 50, 40]
      (by norm_num [Ring.freshPlayer]),
    takeDamage_health_invariant.2.2 Ring.weakEnemy 3
      (Or.inr (by norm_num [Ring.weakEnemy]))⟩

/-- C10 — confirmed.  `takeDamage` is a no-op under its guard conditions: an
invulnerable or dead player, and a dead enemy, are returned entirely
unchanged (record equality covers every field), and the dead enemy schedules
no timers. -/
theorem takeDamage_noop_under_guards :
    (∀ (p : Ring.PlayerState) (d : ℚ),
        p.invulnerable = true ∨ p.currentState = "DEAD" →
        p.takeDamage d = p) ∧
    (∀ (e : Ring.EnemyState) (d : ℚ), e.currentState = "DEAD" →
        e.takeDamage d = (e, [])) := by
  constructor
  · intro p d h
    unfold Ring.PlayerState.takeDamage
    rcases h with h | h <;> simp [h]
  · intro e d h
    unfold Ring.EnemyState.takeDamage
    simp [h]

/-- C10 — witness at concrete inputs. -/
theorem takeDamage_noop_under_guards_witness :
    ({ Ring.freshPlayer with invulnerable := true } : Ring.PlayerState).takeDamage 7 =
      { Ring.freshPlayer with invulnerable := true } ∧
    ({ Ring.weakEnemy with currentState := "DEAD" } : Ring.EnemyState).takeDamage 7 =
      ({ Ring.weakEnemy with currentState := "DEAD" }, []) :=
  ⟨takeDamage_noop_under_guards.1 _ 7 (Or.inl rfl),
    takeDamage_noop_under_guards.2 _ 7 rfl⟩

/-! ### Combat-manager lemmas -/

theorem getElem?_modifyAt_ne {α : Type} (l : List α) (n k : ℕ) (f : α → α)
    (h : k ≠ n) : (modifyAt l n f)[k]? = l[k]? := by
  unfold Ring.modifyAt
  cases hl : l[n]?
  · rfl
  · exact List.getElem?_set_ne (Ne.symm h)

theorem getElem?_modifyAt_self {α : Type} (l : List α) (n : ℕ) (f : α → α) :
    (modifyAt l n f)[n]? = (l[n]?).map f := by
  unfold Ring.modifyAt
  cases hl : l[n]?
  · exact hl
  · have hlt : n < l.length := by
      by_contra hc
      rw [List.getElem?_eq_none (Nat.le_of_not_lt hc)] at hl
      exact Option.noConfusion hl
    rw [List.getElem?_set_eq hlt]
    rfl

theorem length_modifyAt {α : Type} (l : List α) (n : ℕ) (f : α → α) :
    (modifyAt l n f).length = l.length := by
  unfold Ring.modifyAt
  cases l[n]? <;> simp

theorem handleHit_hitboxes (kn : V3 → V3) (pp : V3) (s : CombatState)
    (i j : ℕ) :
    (handleHit kn pp s i j).hitboxes =
      modifyAt s.hitboxes i (fun hb => { hb with active := false }) := by
  unfold Ring.handleHit
  dsimp only
  cases h1 : (modifyAt s.hitboxes i
      (fun hb => { hb with active := false }))[i]? <;>
    cases h2 : s.entities[j]? <;> rfl

theorem handleHit_entities_length (kn : V3 → V3) (pp : V3) (s : CombatState)
    (i j : ℕ) :
    (handleHit kn pp s i j).entities.length = s.entities.length := by
  unfold Ring.handleHit
  dsimp only
  cases h1 : (modifyAt s.hitboxes i
      (fun hb => { hb with active := false }))[i]? <;>
    cases h2 : s.entities[j]? <;> simp

theorem hbActive_handleHit_self (kn : V3 → V3) (pp : V3) (s : CombatState)
    (i j : ℕ) : hbActive (handleHit kn pp s i j) i = false := by
  unfold Ring.hbActive
  rw [handleHit_hitboxes, getElem?_modifyAt_self]
  cases s.hitboxes[i]? <;> rfl

theorem hbActive_handleHit_ne (kn : V3 → V3) (pp : V3) (s : CombatState)
    (i j k : ℕ) (h : k ≠ i) :
    hbActive (handleHit kn pp s i j) k = hbActive s k := by
  unfold Ring.hbActive
  rw [handleHit_hitboxes, getElem?_modifyAt_ne _ _ _ _ h]

theorem entityStep_cases (kn : V3 → V3) (pp : V3) (i : ℕ)
    (acc : CombatState × List HitEvent) (j : ℕ) :
    entityStep kn pp i acc j = acc ∨
    ∃ d, entityStep kn pp i acc j =
      (handleHit kn pp acc.1 i j, acc.2 ++ [⟨i, j, d⟩]) := by
  unfold Ring.entityStep
  cases h1 : acc.1.hitboxes[i]? <;> cases h2 : acc.1.entities[j]?
  · exact Or.inl rfl
  · exact Or.inl rfl
  · exact Or.inl rfl
  · dsimp only
    split_ifs <;> first
      | exact Or.inl rfl
      | exact Or.inr ⟨_, rfl⟩

theorem hbActive_entityStep_mono (kn : V3 → V3) (pp : V3) (i : ℕ)
    (acc : CombatState × List HitEvent) (j k : ℕ)
    (h : hbActive acc.1 k = false) :
    hbActive (entityStep kn pp i acc j).1 k = false := by
  rcases entityStep_cases kn pp i acc j with hc | ⟨d, hc⟩ <;> rw [hc]
  · exact h
  · by_cases hk : k = i
    · subst hk; exact hbActive_handleHit_self ..
    · rw [hbActive_handleHit_ne _ _ _ _ _ _ hk]; exact h

theorem entityStep_events (kn : V3 → V3) (pp : V3) (i : ℕ)
    (acc : CombatState × List HitEvent) (j : ℕ) :
    ∃ Δ, (entityStep kn pp i acc j).2 = acc.2 ++ Δ ∧
      (∀ ev ∈ Δ, ev.hitboxIdx = i) ∧
      (Δ ≠ [] → hbActive (entityStep kn pp i acc j).1 i = false) := by
  rcases entityStep_cases kn pp i acc j with hc | ⟨d, hc⟩ <;> rw [hc]
  · exact ⟨[], by simp⟩
  · refine ⟨[⟨i, j, d⟩], rfl, by simp, fun _ => ?_⟩
    exact hbActive_handleHit_self ..

theorem entityLoop_active_mono (kn : V3 → V3) (pp : V3) (i : ℕ)
    (js : List ℕ) (acc : CombatState × List HitEvent) (k : ℕ)
    (h : hbActive acc.1 k = false) :
    hbActive ((js.foldl (entityStep kn pp i) acc)).1 k = false := by
  induction js generalizing acc with
  | nil => exact h
  | cons j js ih =>
    exact ih _ (hbActive_entityStep_mono kn pp i acc j k h)

theorem entityLoop_events (kn : V3 → V3) (pp : V3) (i : ℕ)
    (js : List ℕ) (acc : CombatState × List HitEvent) :
    ∃ Δ, (js.foldl (entityStep kn pp i) acc).2 = acc.2 ++ Δ ∧
      (∀ ev ∈ Δ, ev.hitboxIdx = i) ∧
      (Δ ≠ [] → hbActive ((js.foldl (entityStep kn pp i) acc)).1 i = false) := by
  induction js generalizing acc with
  | nil => exact ⟨[], by simp⟩
  | cons j js ih =>
    rcases entityStep_events kn pp i acc j with ⟨Δ₁, he, htag, hact⟩
    rcases ih (entityStep kn pp i acc j) with ⟨Δ₂, he₂, htag₂, hact₂⟩
    refine ⟨Δ₁ ++ Δ₂, ?_, ?_, ?_⟩
    · simp only [List.foldl_cons] at *
      rw [he₂, he, List.append_assoc]
    · intro ev hev
      rcases List.mem_append.mp hev with h1 | h2
      · exact htag ev h1
      · exact htag₂ ev h2
    · intro hne
      simp only [List.foldl_cons]
      by_cases h2 : Δ₂ = []
      · subst h2
        have h1 : Δ₁ ≠ [] := by simpa using hne
        exact entityLoop_active_mono kn pp i js _ i (hact h1)
      · exact hact₂ h2

theorem hitboxStep_inactive (kn : V3 → V3) (env : ℕ → ParentInfo)
    (acc : CombatState × List HitEvent) (i : ℕ)
    (h : hbActive acc.1 i = false) : hitboxStep kn env acc i = acc := by
  unfold Ring.hbActive at h
  unfold Ring.hitboxStep
  cases hl : acc.1.hitboxes[i]?
  · rfl
  · rw [hl] at h
    simp only [] at h
    simp [h]

theorem hbActive_hitboxStep_mono (kn : V3 → V3) (env : ℕ → ParentInfo)
    (acc : CombatState × List HitEvent) (i k : ℕ)
    (h : hbActive acc.1 k = false) :
    hbActive (hitboxStep kn env acc i).1 k = false := by
  unfold Ring.hitboxStep
  cases hl : acc.1.hitboxes[i]?
  · exact h
  · dsimp only
    split_ifs with ha
    · exact entityLoop_active_mono _ _ _ _ _ _ h
    · exact h

theorem hitboxStep_events (kn : V3 → V3) (env : ℕ → ParentInfo)
    (acc : CombatState × List HitEvent) (i : ℕ) :
    ∃ Δ, (hitboxStep kn env acc i).2 = acc.2 ++ Δ ∧
      (∀ ev ∈ Δ, ev.hitboxIdx = i) ∧
      (Δ ≠ [] → hbActive (hitboxStep kn env acc i).1 i = false) := by
  unfold Ring.hitboxStep
  cases hl : acc.1.hitboxes[i]?
  · exact ⟨[], by simp⟩
  · dsimp only
    split_ifs with ha
    · exact entityLoop_events ..
    · exact ⟨[], by simp⟩

theorem checkLoop_active_mono (kn : V3 → V3) (env : ℕ → ParentInfo)
    (is : List ℕ) (acc : CombatState × List HitEvent) (k : ℕ)
    (h : hbActive acc.1 k = false) :
    hbActive ((is.foldl (hitboxStep kn env) acc)).1 k = false := by
  induction is generalizing acc with
  | nil => exact h
  | cons i is ih => exact ih _ (hbActive_hitboxStep_mono kn env acc i k h)

theorem checkLoop_inactive_events (kn : V3 → V3) (env : ℕ → ParentInfo)
    (is : List ℕ) (acc : CombatState × List HitEvent) (i : ℕ)
    (h : hbActive acc.1 i = false) :
    hbActive ((is.foldl (hitboxStep kn env) acc)).1 i = false ∧
    ∀ ev ∈ (is.foldl (hitboxStep kn env) acc).2,
      ev.hitboxIdx = i → ev ∈ acc.2 := by
  induction is generalizing acc with
  | nil => exact ⟨h, fun ev hev _ => hev⟩
  | cons i' is ih =>
    by_cases hii : i' = i
    · subst hii
      rw [List.foldl_cons, hitboxStep_inactive kn env acc i' h]
      exact ih acc h
    · have hmono := hbActive_hitboxStep_mono kn env acc i' i h
      rcases ih (hitboxStep kn env acc i') hmono with ⟨ha, hb⟩
      refine ⟨ha, fun ev hev htag => ?_⟩
      have hmem := hb ev hev htag
      rcases hitboxStep_events kn env acc i' with ⟨Δ, he, htagΔ, _⟩
      rw [he] at hmem
      rcases List.mem_append.mp hmem with h1 | h2
      · exact h1
      · exact absurd ((htagΔ ev h2).symm.trans htag) hii

theorem checkLoop_once (kn : V3 → V3) (env : ℕ → ParentInfo)
    (is : List ℕ) (acc : CombatState × List HitEvent) (i : ℕ)
    (h : ∃ ev ∈ (is.foldl (hitboxStep kn env) acc).2,
      ev.hitboxIdx = i ∧ ev ∉ acc.2) :
    hbActive ((is.foldl (hitboxStep kn env) acc)).1 i = false := by
  induction is generalizing acc with
  | nil =>
    rcases h with ⟨ev, hev, _, hnot⟩
    exact absurd hev hnot
  | cons i' is ih =>
    rcases h with ⟨ev, hev, htag, hnot⟩
    rw [List.foldl_cons] at hev ⊢
    by_cases hstep : ev ∈ (hitboxStep kn env acc i').2
    · rcases hitboxStep_events kn env acc i' with ⟨Δ, he, htagΔ, hact⟩
      rw [he] at hstep
      rcases List.mem_append.mp hstep with h1 | h2
      · exact absurd h1 hnot
      · have hii : i' = i := (htagΔ ev h2).symm.trans htag
        subst hii
        have hfalse := hact (List.ne_nil_of_mem h2)
        exact checkLoop_active_mono kn env is _ _ hfalse
    · exact ih (hitboxStep kn env acc i') ⟨ev, hev, htag, hstep⟩

theorem checkCollisions_inactive (kn : V3 → V3) (env : ℕ → ParentInfo)
    (s : CombatState) (i : ℕ) (h : hbActive s i = false) :
    hbActive (checkCollisions kn env s).1 i = false ∧
    ∀ ev ∈ (checkCollisions kn env s).2, ev.hitboxIdx ≠ i := by
  unfold Ring.checkCollisions
  rcases checkLoop_inactive_events kn env (List.range s.hitboxes.length)
      (s, []) i h with ⟨ha, hb⟩
  exact ⟨ha, fun ev hev htag => by simpa using hb ev hev htag⟩

theorem checkCollisions_once (kn : V3 → V3) (env : ℕ → ParentInfo)
    (s : CombatState) (i : ℕ)
    (h : ∃ ev ∈ (checkCollisions kn env s).2, ev.hitboxIdx = i) :
    hbActive (checkCollisions kn env s).1 i = false := by
  unfold Ring.checkCollisions at *
  rcases h with ⟨ev, hev, htag⟩
  exact checkLoop_once kn env _ (s, []) i ⟨ev, hev, htag, by simp⟩

theorem getElem?_mapIdx {α : Type} (l : List α) (f : ℕ → α → α) (i : ℕ) :
    (l.mapIdx f)[i]? = (l[i]?).map (f i) := by
  rcases Nat.lt_or_ge i l.length with h | h
  · rw [List.getElem?_eq_getElem (by simpa using h), List.getElem?_eq_getElem h]
    simp [List.get_mapIdx]
  · rw [List.getElem?_eq_none (by simpa using h), List.getElem?_eq_none h]
    rfl

theorem update_inactive (kn : V3 → V3) (env : ℕ → ParentInfo) (delta : ℚ)
    (s : CombatState) (i : ℕ) (h : hbActive s i = false) :
    hbActive (CombatState.update kn env delta s).1 i = false ∧
    ∀ ev ∈ (CombatState.update kn env delta s).2, ev.hitboxIdx ≠ i := by
  unfold Ring.CombatState.update
  apply checkCollisions_inactive
  unfold Ring.hbActive at h ⊢
  dsimp only
  rw [getElem?_mapIdx]
  cases hl : s.hitboxes[i]?
  · rfl
  · rw [hl] at h
    simp only [] at h
    simp [h]

theorem update_once (kn : V3 → V3) (env : ℕ → ParentInfo) (delta : ℚ)
    (s : CombatState) (i : ℕ)
    (h : ∃ ev ∈ (CombatState.update kn env delta s).2, ev.hitboxIdx = i) :
    hbActive (CombatState.update kn env delta s).1 i = false := by
  unfold Ring.CombatState.update at *
  exact checkCollisions_once kn env _ i h

theorem runUpdates_inactive (kn : V3 → V3)
    (steps : List ((ℕ → ParentInfo) × ℚ)) (s : CombatState) (i : ℕ)
    (h : hbActive s i = false) :
    hbActive (CombatState.runUpdates kn steps s).1 i = false ∧
    passCount i (CombatState.runUpdates kn steps s).2 = 0 := by
  induction steps generalizing s with
  | nil => exact ⟨h, rfl⟩
  | cons st steps ih =>
    rcases update_inactive kn st.1 st.2 s i h with ⟨h1, h2⟩
    rcases ih (CombatState.update kn st.1 st.2 s).1 h1 with ⟨h3, h4⟩
    constructor
    · simpa [Ring.CombatState.runUpdates] using h3
    · unfold Ring.passCount Ring.CombatState.runUpdates
      rw [List.countP_cons]
      have hany : ((CombatState.update kn st.1 st.2 s).2.any
          (fun ev => ev.hitboxIdx == i)) = false := by
        rw [List.any_eq_false]
        intro ev hev
        simpa using h2 ev hev
      unfold Ring.passCount at h4
      simp [hany, h4]

/-- C2 — counterexample.  A hitbox can deal damage more than once: the inner
entity loop of `checkCollisions` never re-checks the `active` flag that
`handleHit` just cleared, so one active hitbox overlapping two live entities
invokes `handleHit` (and applies its damage) twice in a single pass. -/
theorem hitbox_hits_two_entities_in_one_pass :
    (checkCollisions (fun v => v) (fun _ => originParent) twoVictimState).2 =
      [⟨0, 0, 1⟩, ⟨0, 1, 1⟩] := by
  simp [Ring.checkCollisions, Ring.twoVictimState, Ring.hitboxStep,
    Ring.entityStep, Ring.handleHit, Ring.modifyAt, Ring.hbActive,
    Ring.wideHitbox, Ring.cubeEnemy, Ring.originParent, Ring.hitboxIntersects,
    Ring.Box3.intersects, Ring.ManagedEntity.worldBox,
    Ring.ManagedEntity.position, Ring.ManagedEntity.currentState,
    Ring.ManagedEntity.takeDamage, Ring.ManagedEntity.setPosition,
    Ring.EnemyState.takeDamage, Ring.EnemyState.becomeHostile,
    Ring.EnemyState.setState, Ring.EnemyState.playAnimation, Ring.V3.add,
    Ring.V3.sub, Ring.V3.smul, List.range_succ, String.reduceEq]
  repeat first
    | simp [reduceCtorEq, String.reduceEq]
    | norm_num [Ring.handleHit, Ring.modifyAt, Ring.ManagedEntity.takeDamage,
    Ring.EnemyState.takeDamage, Ring.EnemyState.becomeHostile,
    Ring.EnemyState.setState, Ring.EnemyState.playAnimation,
    Ring.ManagedEntity.currentState, Ring.ManagedEntity.worldBox,
    Ring.ManagedEntity.position, Ring.hitboxIntersects, Ring.Box3.intersects,
    Ring.V3.add, Ring.V3.sub, Ring.V3.smul, Ring.ManagedEntity.setPosition,
    String.reduceEq, reduceCtorEq]

/-- C2 — amended claim.  Across frames the at-most-once property does hold:
(1) for every run of `update` passes, at most one pass contains hit events of
a given hitbox (once `handleHit` fires, the hitbox's `active` flag is cleared
and never set again, so every later pass skips it); and (2) when a hitbox's
remaining lifetime reaches zero during `update` it likewise becomes inactive.
Within the single pass in which it first hits, however, the hitbox may damage
several entities (see the counterexample). -/
theorem hitbox_damage_at_most_one_pass :
    (∀ (kn : V3 → V3) (steps : List ((ℕ → ParentInfo) × ℚ)) (s : CombatState)
      (i : ℕ), passCount i (CombatState.runUpdates kn steps s).2 ≤ 1) ∧
    (∀ (kn : V3 → V3) (env : ℕ → ParentInfo) (delta : ℚ) (s : CombatState)
      (i : ℕ) (hb : Hitbox), s.hitboxes[i]? = some hb → hb.active = true →
      hb.timeRemaining - delta ≤ 0 →
      hbActive (CombatState.update kn env delta s).1 i = false) := by
  constructor
  · intro kn steps s i
    induction steps generalizing s with
    | nil => simp [Ring.CombatState.runUpdates, Ring.passCount]
    | cons st steps ih =>
      unfold Ring.CombatState.runUpdates Ring.passCount
      rw [List.countP_cons]
      by_cases hany : ((CombatState.update kn st.1 st.2 s).2.any
          (fun ev => ev.hitboxIdx == i)) = true
      · have hex : ∃ ev ∈ (CombatState.update kn st.1 st.2 s).2,
            ev.hitboxIdx = i := by
          rcases List.any_eq_true.mp hany with ⟨ev, hev, hp⟩
          exact ⟨ev, hev, by simpa using hp⟩
        have hin := update_once kn st.1 st.2 s i hex
        have h0 := (runUpdates_inactive kn steps _ i hin).2
        unfold Ring.passCount at h0
        rw [h0]
        simp [hany]
      · rw [Bool.not_eq_true] at hany
        unfold Ring.passCount at ih
        simp only [hany, if_false, Bool.false_eq_true, Nat.add_zero]
        exact ih _
  · intro kn env delta s i hb hget hact hexp
    unfold Ring.CombatState.update
    refine (checkCollisions_inactive kn env _ i ?_).1
    unfold Ring.hbActive
    dsimp only
    rw [getElem?_mapIdx, hget]
    simp only [Option.map_some']
    rw [if_pos hact]
    unfold Ring.hitboxUpdate
    rw [if_pos hexp]

/-- C2 — witness for the amended claim at concrete inputs. -/
theorem hitbox_damage_at_most_one_pass_witness :
    passCount 0 (CombatState.runUpdates (fun v => v)
      [(fun _ => originParent, 1/10)] twoVictimState).2 ≤ 1 ∧
    hbActive (CombatState.update (fun v => v) (fun _ => originParent) 2
      twoVictimState).1 0 = false :=
  ⟨hitbox_damage_at_most_one_pass.1 (fun v => v)
      [(fun _ => originParent, 1/10)] twoVictimState 0,
    hitbox_damage_at_most_one_pass.2 (fun v => v) (fun _ => originParent) 2
      twoVictimState 0 wideHitbox rfl rfl (by norm_num [Ring.wideHitbox])⟩

/-! ### Static-pass lemmas (C5) -/

theorem mem_modifyAt {α : Type} (l : List α) (n : ℕ) (f : α → α) (x : α)
    (h : x ∈ modifyAt l n f) : x ∈ l ∨ ∃ y, y ∈ l ∧ x = f y := by
  unfold Ring.modifyAt at h
  cases hl : l[n]? with
  | none => rw [hl] at h; exact Or.inl h
  | some a =>
    rw [hl] at h
    rcases List.mem_or_eq_of_mem_set h with h1 | h2
    · exact Or.inl h1
    · exact Or.inr ⟨a, List.getElem?_mem hl, h2⟩

theorem sumActiveDamageL_cons (hb : Hitbox) (t : List Hitbox) :
    sumActiveDamageL (hb :: t) =
      (if hb.active then hb.damage else 0) + sumActiveDamageL t := by
  unfold Ring.sumActiveDamageL
  by_cases h : hb.active <;> simp [List.filter_cons, h]

theorem sumActiveDamageL_nonneg (l : List Hitbox)
    (h : ∀ hb ∈ l, 0 ≤ hb.damage) : 0 ≤ sumActiveDamageL l := by
  induction l with
  | nil => simp [Ring.sumActiveDamageL]
  | cons a t ih =>
    rw [sumActiveDamageL_cons]
    have ht := ih (fun hb hm => h hb (List.mem_cons_of_mem a hm))
    have ha := h a (List.mem_cons_self a t)
    split_ifs <;> linarith

theorem damage_le_sumActiveDamageL (l : List Hitbox) (i : ℕ) (hb : Hitbox)
    (hget : l[i]? = some hb) (hact : hb.active = true)
    (hnn : ∀ hb' ∈ l, 0 ≤ hb'.damage) : hb.damage ≤ sumActiveDamageL l := by
  induction l generalizing i with
  | nil => simp at hget
  | cons a t ih =>
    have hnt : ∀ hb' ∈ t, 0 ≤ hb'.damage :=
      fun hb' hm => hnn hb' (List.mem_cons_of_mem a hm)
    rw [sumActiveDamageL_cons]
    cases i with
    | zero =>
      simp only [List.getElem?_cons_zero, Option.some.injEq] at hget
      subst hget
      rw [if_pos hact]
      linarith [sumActiveDamageL_nonneg t hnt]
    | succ n =>
      simp only [List.getElem?_cons_succ] at hget
      have := ih n hget hnt
      split_ifs with ha
      · linarith [hnn a (List.mem_cons_self a t)]
      · linarith

theorem modifyAt_cons_zero {α : Type} (a : α) (t : List α) (f : α → α) :
    modifyAt (a :: t) 0 f = f a :: t := by
  unfold Ring.modifyAt
  rw [List.getElem?_cons_zero]
  rfl

theorem modifyAt_cons_succ {α : Type} (a : α) (t : List α) (n : ℕ)
    (f : α → α) : modifyAt (a :: t) (n + 1) f = a :: modifyAt t n f := by
  unfold Ring.modifyAt
  rw [List.getElem?_cons_succ]
  cases t[n]? <;> rfl

theorem sumActive_modifyAt_deactivate (l : List Hitbox) (i : ℕ) (hb : Hitbox)
    (hget : l[i]? = some hb) (hact : hb.active = true) :
    sumActiveDamageL (modifyAt l i (fun hb => { hb with active := false })) =
      sumActiveDamageL l - hb.damage := by
  induction l generalizing i with
  | nil => simp at hget
  | cons a t ih =>
    cases i with
    | zero =>
      simp only [List.getElem?_cons_zero, Option.some.injEq] at hget
      subst hget
      rw [modifyAt_cons_zero, sumActiveDamageL_cons, sumActiveDamageL_cons,
        if_pos hact]
      simp
    | succ n =>
      simp only [List.getElem?_cons_succ] at hget
      rw [modifyAt_cons_succ, sumActiveDamageL_cons, sumActiveDamageL_cons,
        ih n hget]
      ring

theorem takeDamage_of_dead (ent : ManagedEntity) (d : ℚ)
    (h : ent.currentState = "DEAD") : ent.takeDamage d = (ent, []) := by
  obtain ⟨data, hm, gmin, gmax⟩ := ent
  cases data with
  | player p =>
    simp only [Ring.ManagedEntity.currentState] at h
    simp [Ring.ManagedEntity.takeDamage, Ring.PlayerState.takeDamage, h]
  | enemy e =>
    simp only [Ring.ManagedEntity.currentState] at h
    simp [Ring.ManagedEntity.takeDamage, Ring.EnemyState.takeDamage, h]

theorem playerTakeDamage_alive (p : PlayerState) (d : ℚ)
    (halive : p.currentState ≠ "DEAD") (hd0 : 0 ≤ d)
    (hgt : 0 < p.health - d) :
    (p.takeDamage d).currentState ≠ "DEAD" ∧
    p.health - d ≤ (p.takeDamage d).health ∧
    (p.takeDamage d).position = p.position := by
  unfold Ring.PlayerState.takeDamage
  by_cases hinv : p.invulnerable = true
  · rw [if_pos (show (p.invulnerable || p.currentState == "DEAD") = true by
      simp [hinv])]
    exact ⟨halive, by linarith, rfl⟩
  · rw [if_neg (show ¬ (p.invulnerable || p.currentState == "DEAD") = true by
      simp [hinv, halive]),
      if_neg (show ¬ p.health - d ≤ 0 by linarith)]
    unfold Ring.PlayerState.getStaggered Ring.PlayerState.fadeToAction
    refine ⟨?_, ?_, ?_⟩ <;> simp

theorem enemyTakeDamage_alive (e : EnemyState) (d : ℚ)
    (halive : e.currentState ≠ "DEAD") (hgt : 0 < e.health - d) :
    (e.takeDamage d).1.currentState ≠ "DEAD" ∧
    e.health - d ≤ (e.takeDamage d).1.health ∧
    (e.takeDamage d).1.position = e.position := by
  unfold Ring.EnemyState.takeDamage
  rw [if_neg (show ¬ (e.currentState == "DEAD") = true by simp [halive]),
    if_neg (show ¬ e.health - d ≤ 0 by linarith)]
  by_cases h20 : d ≥ 20
  · rw [if_pos h20]
    refine ⟨?_, ?_, ?_⟩ <;>
      simp [Ring.EnemyState.setState, Ring.EnemyState.playAnimation,
        String.reduceEq]
  · rw [if_neg h20]
    unfold Ring.EnemyState.becomeHostile
    by_cases hhost : e.isHostile = true
    · rw [if_pos hhost]
      exact ⟨halive, by simp, rfl⟩
    · rw [if_neg hhost]
      refine ⟨?_, ?_, ?_⟩ <;>
        simp [Ring.EnemyState.setState, String.reduceEq]

theorem takeDamage_of_alive (ent : ManagedEntity) (d : ℚ)
    (halive : ent.currentState ≠ "DEAD") (hd0 : 0 ≤ d)
    (hgt : 0 < ent.health - d) :
    (ent.takeDamage d).1.currentState ≠ "DEAD" ∧
    ent.health - d ≤ (ent.takeDamage d).1.health ∧
    (ent.takeDamage d).1.hasModel = ent.hasModel ∧
    (ent.takeDamage d).1.position = ent.position ∧
    (ent.takeDamage d).1.geomMin = ent.geomMin ∧
    (ent.takeDamage d).1.geomMax = ent.geomMax := by
  obtain ⟨data, hm, gmin, gmax⟩ := ent
  cases data with
  | player p =>
    simp only [Ring.ManagedEntity.currentState] at halive
    simp only [Ring.ManagedEntity.health] at hgt
    rcases playerTakeDamage_alive p d halive hd0 hgt with ⟨h1, h2, h3⟩
    simp only [Ring.ManagedEntity.takeDamage, Ring.ManagedEntity.currentState,
      Ring.ManagedEntity.health, Ring.ManagedEntity.position]
    exact ⟨h1, h2, by simp, h3, by simp, by simp⟩
  | enemy e =>
    simp only [Ring.ManagedEntity.currentState] at halive
    simp only [Ring.ManagedEntity.health] at hgt
    rcases enemyTakeDamage_alive e d halive hgt with ⟨h1, h2, h3⟩
    simp only [Ring.ManagedEntity.takeDamage, Ring.ManagedEntity.currentState,
      Ring.ManagedEntity.health, Ring.ManagedEntity.position]
    exact ⟨h1, h2, by simp, h3, by simp, by simp⟩

theorem handleHit_spec (kn : V3 → V3) (pp : V3) (s : CombatState) (i j : ℕ)
    (hbC : Hitbox) (entC : ManagedEntity)
    (hcur : s.hitboxes[i]? = some hbC) (hent : s.entities[j]? = some entC)
    (hkb : hbC.knockback = 0) :
    handleHit kn pp s i j =
      { entities := s.entities.set j (entC.takeDamage hbC.damage).1,
        hitboxes := modifyAt s.hitboxes i (fun hb => { hb with active := false }),
        timers := s.timers ++
          ((entC.takeDamage hbC.damage).2.map (fun t => (j, t))) } := by
  unfold Ring.handleHit
  dsimp only
  have h1 : (modifyAt s.hitboxes i
      (fun hb => { hb with active := false }))[i]? =
      some { hbC with active := false } := by
    rw [getElem?_modifyAt_self, hcur]
    rfl
  rw [h1, hent]
  dsimp only
  rw [if_neg (show ¬ (decide (({ hbC with active := false } : Hitbox).knockback > 0)
      && (entC.takeDamage ({ hbC with active := false } : Hitbox).damage).1.hasModel) = true by
    simp [hkb])]

/-- Invariant preservation through one `handleHit` on a live entity. -/
theorem handleHit_inv (kn : V3 → V3) (pp : V3) (s0 s : CombatState)
    (i j : ℕ) (hbC : Hitbox) (entC : ManagedEntity)
    (hInv : PassInv s0 s)
    (hbound : ∀ (k : ℕ) (ent : ManagedEntity), s0.entities[k]? = some ent →
      ent.currentState ≠ "DEAD" → sumActiveDamage s0 < ent.health)
    (hcur : s.hitboxes[i]? = some hbC) (hcAct : hbC.active = true)
    (hent : s.entities[j]? = some entC)
    (halive : entC.currentState ≠ "DEAD") :
    PassInv s0 (handleHit kn pp s i j) := by
  have hdm := hInv.dmgs hbC (List.getElem?_mem hcur)
  have hspec := handleHit_spec kn pp s i j hbC entC hcur hent hdm.2
  have hjlen : j < s.entities.length := by
    by_contra hc
    rw [List.getElem?_eq_none (Nat.le_of_not_lt hc)] at hent
    exact Option.noConfusion hent
  have hjlen0 : j < s0.entities.length := by rw [← hInv.entsLen]; exact hjlen
  obtain ⟨ent0, hent0⟩ : ∃ ent0, s0.entities[j]? = some ent0 :=
    ⟨s0.entities[j], List.getElem?_eq_getElem hjlen0⟩
  obtain ⟨entC', hentC', hviews⟩ := hInv.ents j ent0 hent0
  rw [hent] at hentC'
  obtain rfl := Option.some.inj hentC'
  have halive0 : ent0.currentState ≠ "DEAD" := by
    intro hdead
    apply halive
    rw [hviews.2.2.2.2.1 hdead]
    exact hdead
  have hboundC := hviews.2.2.2.2.2 halive0
  have hdle : hbC.damage ≤ sumActiveDamageL s.hitboxes :=
    damage_le_sumActiveDamageL s.hitboxes i hbC hcur hcAct
      (fun hb' hm => (hInv.dmgs hb' hm).1)
  have hb0 := hbound j ent0 hent0 halive0
  have hgtC : 0 < entC.health - hbC.damage := by
    have hbc2 := hboundC.2
    unfold Ring.sumActiveDamage at hb0 hbc2
    linarith
  have hTD := takeDamage_of_alive entC hbC.damage halive hdm.1 hgtC
  have hsum' : sumActiveDamageL
      (modifyAt s.hitboxes i (fun hb => { hb with active := false })) =
      sumActiveDamageL s.hitboxes - hbC.damage :=
    sumActive_modifyAt_deactivate s.hitboxes i hbC hcur hcAct
  rw [hspec]
  refine ⟨?_, ?_, ?_, ?_⟩
  · simpa using hInv.entsLen
  · simpa [length_modifyAt] using hInv.hbsLen
  · intro hb hm
    rcases mem_modifyAt _ _ _ _ hm with h1 | ⟨y, hy, rfl⟩
    · exact hInv.dmgs hb h1
    · exact hInv.dmgs y hy
  · intro k ent0k hent0k
    by_cases hkj : k = j
    · subst hkj
      obtain rfl := Option.some.inj (hent0.symm.trans hent0k)
      refine ⟨(entC.takeDamage hbC.damage).1, ?_, ?_, ?_, ?_, ?_, ?_, ?_⟩
      · simpa using List.getElem?_set_eq hjlen
      · rw [hTD.2.2.1, hviews.1]
      · rw [hTD.2.2.2.1, hviews.2.1]
      · rw [hTD.2.2.2.2.1, hviews.2.2.1]
      · rw [hTD.2.2.2.2.2, hviews.2.2.2.1]
      · exact fun hdead => absurd hdead halive0
      · intro _
        refine ⟨hTD.1, ?_⟩
        have hbc2 := hboundC.2
        have htd2 := hTD.2.1
        unfold Ring.sumActiveDamage at hbc2 ⊢
        dsimp only
        rw [hsum']
        linarith
    · obtain ⟨entk, hentk, hvk⟩ := hInv.ents k ent0k hent0k
      refine ⟨entk, ?_, hvk.1, hvk.2.1, hvk.2.2.1, hvk.2.2.2.1,
        hvk.2.2.2.2.1, ?_⟩
      · have := List.getElem?_set_ne
          (fun h => hkj h.symm)
          (l := s.entities) (a := (entC.takeDamage hbC.damage).1)
        dsimp only
        rw [this]
        exact hentk
      · intro halivek
        rcases hvk.2.2.2.2.2 halivek with ⟨ha, hbnd⟩
        refine ⟨ha, ?_⟩
        unfold Ring.sumActiveDamage at hbnd ⊢
        dsimp only
        rw [hsum']
        have hd0 := hdm.1
        linarith

theorem modifyAt_deactivate_idem (l : List Hitbox) (i : ℕ) :
    modifyAt (modifyAt l i (fun hb => { hb with active := false })) i
      (fun hb => { hb with active := false }) =
    modifyAt l i (fun hb => { hb with active := false }) := by
  unfold Ring.modifyAt
  cases hl : l[i]? with
  | none =>
    dsimp only
    rw [hl]
  | some a =>
    dsimp only
    have h2 : (l.set i ({ a with active := false }))[i]? =
        some { a with active := false } := by
      have hlt : i < l.length := by
        by_contra hc
        rw [List.getElem?_eq_none (Nat.le_of_not_lt hc)] at hl
        exact Option.noConfusion hl
      exact List.getElem?_set_eq (by simpa using hlt)
    rw [h2]
    dsimp only
    rw [List.set_set]

theorem filterMap_cons_toList {α β : Type} (f : α → Option β) (j : α)
    (js : List α) :
    (j :: js).filterMap f = (f j).toList ++ js.filterMap f := by
  cases hf : f j <;> simp [List.filterMap_cons, hf]

/-- One inner-loop step of hitbox `i` against entity `j`: it emits exactly
the event the static pair check on the pass-start state `s0` predicts, and
preserves the inner invariant. -/
theorem entityStep_static_step (kn : V3 → V3) (pp : V3)
    (s0 sPre : CombatState) (i : ℕ) (hb0 : Hitbox)
    (hPre : PassInv s0 sPre)
    (hbound : ∀ (k : ℕ) (ent : ManagedEntity), s0.entities[k]? = some ent →
      ent.currentState ≠ "DEAD" → sumActiveDamage s0 < ent.health)
    (h0cur : sPre.hitboxes[i]? = some hb0) (h0act : hb0.active = true)
    (s : CombatState) (evs : List HitEvent) (j : ℕ)
    (hII : InnerInv sPre s i hb0.damage)
    (huntouched : s.entities[j]? = sPre.entities[j]?) :
    (entityStep kn pp i (s, evs) j).2 =
      evs ++ (staticPairCheck s0 hb0 i j).toList ∧
    InnerInv sPre (entityStep kn pp i (s, evs) j).1 i hb0.damage ∧
    ∀ k : ℕ, k ≠ j → (entityStep kn pp i (s, evs) j).1.entities[k]? =
      s.entities[k]? := by
  have hkb := hPre.dmgs hb0 (List.getElem?_mem h0cur)
  obtain ⟨b, hbCur⟩ : ∃ b, s.hitboxes[i]? = some { hb0 with active := b } := by
    rcases hII with ⟨_, hH⟩ | ⟨hH, _, _⟩
    · exact ⟨hb0.active, by rw [hH]; exact h0cur⟩
    · refine ⟨false, ?_⟩
      rw [hH, getElem?_modifyAt_self, h0cur]
      rfl
  unfold Ring.entityStep
  dsimp only
  rw [hbCur]
  cases hsj : s.entities[j]? with
  | none =>
    have hsPrej : sPre.entities[j]? = none := by rw [← huntouched]; exact hsj
    have h0j : s0.entities[j]? = none := by
      rw [List.getElem?_eq_none]
      rw [← hPre.entsLen]
      simpa using hsPrej
    unfold Ring.staticPairCheck
    rw [h0j]
    exact ⟨by simp, hII, fun k _ => rfl⟩
  | some entC =>
    have hsPrej : sPre.entities[j]? = some entC := by
      rw [← huntouched]; exact hsj
    have hjlen0 : j < s0.entities.length := by
      rw [← hPre.entsLen]
      by_contra hc
      rw [List.getElem?_eq_none (Nat.le_of_not_lt hc)] at hsPrej
      exact Option.noConfusion hsPrej
    obtain ⟨ent0, hent0⟩ : ∃ ent0, s0.entities[j]? = some ent0 :=
      ⟨s0.entities[j], List.getElem?_eq_getElem hjlen0⟩
    obtain ⟨entC', hentC', hviews⟩ := hPre.ents j ent0 hent0
    rw [hsPrej] at hentC'
    obtain rfl := Option.some.inj hentC'
    dsimp only
    have hdeadIff : (entC.currentState == "DEAD") =
        (ent0.currentState == "DEAD") := by
      by_cases hd : ent0.currentState = "DEAD"
      · rw [hviews.2.2.2.2.1 hd]
      · have h1 : entC.currentState ≠ "DEAD" := (hviews.2.2.2.2.2 hd).1
        simp [hd, h1]
    have hbox : entC.worldBox = ent0.worldBox := by
      unfold Ring.ManagedEntity.worldBox
      rw [hviews.2.1, hviews.2.2.1, hviews.2.2.2.1]
    unfold Ring.staticPairCheck
    rw [hent0]
    dsimp only
    by_cases c1 : (hb0.owner == some j) = true
    · rw [if_pos (show (({ hb0 with active := b } : Hitbox).owner == some j)
          = true from c1), if_pos c1]
      exact ⟨by simp, hII, fun k _ => rfl⟩
    · rw [if_neg (show ¬ (({ hb0 with active := b } : Hitbox).owner == some j)
          = true from c1), if_neg c1]
      by_cases c2 : (!ent0.hasModel || ent0.currentState == "DEAD") = true
      · rw [if_pos (show (!entC.hasModel || entC.currentState == "DEAD")
            = true by rw [hviews.1, hdeadIff]; exact c2), if_pos c2]
        exact ⟨by simp, hII, fun k _ => rfl⟩
      · rw [if_neg (show ¬ (!entC.hasModel || entC.currentState == "DEAD")
            = true by rw [hviews.1, hdeadIff]; exact c2), if_neg c2]
        have hc3 : hitboxIntersects ({ hb0 with active := b }) entC.worldBox =
            hitboxIntersects hb0 ent0.worldBox := by
          rw [hbox]
          rfl
        by_cases c3 : hitboxIntersects hb0 ent0.worldBox = true
        · rw [if_pos (hc3.trans c3), if_pos c3]
          -- the hit fires
          have halive : entC.currentState ≠ "DEAD" := by
            intro hd
            apply c2
            rw [← hdeadIff]
            simp [hd]
          have halive0 : ent0.currentState ≠ "DEAD" := by
            intro hd
            exact halive (by rw [hviews.2.2.2.2.1 hd]; exact hd)
          have hboundC := (hviews.2.2.2.2.2 halive0).2
          have hdle : hb0.damage ≤ sumActiveDamageL sPre.hitboxes :=
            damage_le_sumActiveDamageL sPre.hitboxes i hb0 h0cur h0act
              (fun hb' hm => (hPre.dmgs hb' hm).1)
          have hb2 := hbound j ent0 hent0 halive0
          have hgt : 0 < entC.health - hb0.damage := by
            unfold Ring.sumActiveDamage at hb2 hboundC
            linarith
          have hspec := handleHit_spec kn pp s i j _ entC hbCur hsj
            (show ({ hb0 with active := b } : Hitbox).knockback = 0 from hkb.2)
          refine ⟨by simp, ?_, ?_⟩
          · -- inner invariant after the hit
            rw [hspec]
            right
            refine ⟨?_, ?_, ?_⟩
            · dsimp only
              rcases hII with ⟨_, hH⟩ | ⟨hH, _, _⟩
              · rw [hH]
              · rw [hH, modifyAt_deactivate_idem]
            · dsimp only
              rw [List.length_set]
              rcases hII with ⟨hE, _⟩ | ⟨_, hL, _⟩
              · rw [hE]
              · exact hL
            · intro k
              by_cases hkj : k = j
              · rw [hkj]
                right
                refine ⟨entC, hsPrej, halive, hgt, ?_⟩
                dsimp only
                have hjlen : j < s.entities.length := by
                  by_contra hc
                  rw [List.getElem?_eq_none (Nat.le_of_not_lt hc)] at hsj
                  exact Option.noConfusion hsj
                simpa using List.getElem?_set_eq hjlen
              · have hkk : ∀ (x : ManagedEntity),
                    (s.entities.set j x)[k]? = s.entities[k]? :=
                  fun x => List.getElem?_set_ne (fun h => hkj h.symm)
                rcases hII with ⟨hE, _⟩ | ⟨_, _, hAll⟩
                · left
                  dsimp only
                  rw [hkk, hE]
                · rcases hAll k with h1 | ⟨entP, h2, h3, h4, h5⟩
                  · left
                    dsimp only
                    rw [hkk]
                    exact h1
                  · right
                    refine ⟨entP, h2, h3, h4, ?_⟩
                    dsimp only
                    rw [hkk]
                    exact h5
          · intro k hkj
            rw [hspec]
            dsimp only
            exact List.getElem?_set_ne (fun h => hkj h.symm)
        · rw [if_neg (fun h => c3 (hc3 ▸ h)), if_neg c3]
          exact ⟨by simp, hII, fun k _ => rfl⟩

theorem entityStep_hitboxes_ne (kn : V3 → V3) (pp : V3) (i : ℕ)
    (acc : CombatState × List HitEvent) (j k : ℕ) (hk : k ≠ i) :
    (entityStep kn pp i acc j).1.hitboxes[k]? = acc.1.hitboxes[k]? := by
  rcases entityStep_cases kn pp i acc j with hc | ⟨d, hc⟩ <;> rw [hc]
  rw [handleHit_hitboxes, getElem?_modifyAt_ne _ _ _ _ hk]

theorem entityLoop_hitboxes_ne (kn : V3 → V3) (pp : V3) (i : ℕ)
    (js : List ℕ) (acc : CombatState × List HitEvent) (k : ℕ) (hk : k ≠ i) :
    (js.foldl (entityStep kn pp i) acc).1.hitboxes[k]? =
      acc.1.hitboxes[k]? := by
  induction js generalizing acc with
  | nil => rfl
  | cons j js ih =>
    rw [List.foldl_cons, ih, entityStep_hitboxes_ne kn pp i acc j k hk]

/-- The inner entity loop of an active hitbox `i` produces exactly the
statically predicted events and preserves the inner invariant. -/
theorem entityLoop_static (kn : V3 → V3) (pp : V3) (s0 sPre : CombatState)
    (i : ℕ) (hb0 : Hitbox) (hPre : PassInv s0 sPre)
    (hbound : ∀ (k : ℕ) (ent : ManagedEntity), s0.entities[k]? = some ent →
      ent.currentState ≠ "DEAD" → sumActiveDamage s0 < ent.health)
    (h0cur : sPre.hitboxes[i]? = some hb0) (h0act : hb0.active = true) :
    ∀ (js : List ℕ) (acc : CombatState × List HitEvent), js.Nodup →
    (∀ j ∈ js, acc.1.entities[j]? = sPre.entities[j]?) →
    InnerInv sPre acc.1 i hb0.damage →
    (js.foldl (entityStep kn pp i) acc).2 =
      acc.2 ++ js.filterMap (staticPairCheck s0 hb0 i) ∧
    InnerInv sPre (js.foldl (entityStep kn pp i) acc).1 i hb0.damage := by
  intro js
  induction js with
  | nil => intro acc _ _ hII; exact ⟨by simp, hII⟩
  | cons j js ih =>
    intro acc hnd hunt hII
    have hstep := entityStep_static_step kn pp s0 sPre i hb0 hPre hbound
      h0cur h0act acc.1 acc.2 j hII (hunt j (List.mem_cons_self j js))
    rw [Prod.mk.eta] at hstep
    obtain ⟨h1, h2, h3⟩ := hstep
    have hnd' := (List.nodup_cons.mp hnd)
    have hunt' : ∀ k ∈ js,
        (entityStep kn pp i acc j).1.entities[k]? = sPre.entities[k]? := by
      intro k hk
      have hkj : k ≠ j := fun h => hnd'.1 (h ▸ hk)
      rw [h3 k hkj]
      exact hunt k (List.mem_cons_of_mem j hk)
    obtain ⟨ih1, ih2⟩ := ih (entityStep kn pp i acc j) hnd'.2 hunt' h2
    rw [List.foldl_cons]
    refine ⟨?_, ih2⟩
    rw [ih1, h1, filterMap_cons_toList, List.append_assoc]

/-- Rebuilding the pass invariant when the inner loop of hitbox `i` ends. -/
theorem innerInv_to_passInv (s0 sPre s : CombatState) (i : ℕ) (hb0 : Hitbox)
    (hPre : PassInv s0 sPre)
    (h0cur : sPre.hitboxes[i]? = some hb0) (h0act : hb0.active = true)
    (hII : InnerInv sPre s i hb0.damage) : PassInv s0 s := by
  have hkb := hPre.dmgs hb0 (List.getElem?_mem h0cur)
  rcases hII with ⟨hE, hH⟩ | ⟨hH, hL, hAll⟩
  · refine ⟨?_, ?_, ?_, ?_⟩
    · rw [hE]; exact hPre.entsLen
    · rw [hH]; exact hPre.hbsLen
    · intro hb hm; rw [hH] at hm; exact hPre.dmgs hb hm
    · intro j ent0 hj
      obtain ⟨ent, h1, hv⟩ := hPre.ents j ent0 hj
      refine ⟨ent, by rw [hE]; exact h1, hv.1, hv.2.1, hv.2.2.1, hv.2.2.2.1,
        hv.2.2.2.2.1, ?_⟩
      intro halive0
      rcases hv.2.2.2.2.2 halive0 with ⟨ha, hbnd⟩
      refine ⟨ha, ?_⟩
      unfold Ring.sumActiveDamage at hbnd ⊢
      rw [hH]
      exact hbnd
  · have hsum' : sumActiveDamageL s.hitboxes =
        sumActiveDamageL sPre.hitboxes - hb0.damage := by
      rw [hH]; exact sumActive_modifyAt_deactivate _ _ _ h0cur h0act
    refine ⟨?_, ?_, ?_, ?_⟩
    · rw [hL]; exact hPre.entsLen
    · rw [hH, length_modifyAt]; exact hPre.hbsLen
    · intro hb hm
      rw [hH] at hm
      rcases mem_modifyAt _ _ _ _ hm with h | ⟨y, hy, rfl⟩
      · exact hPre.dmgs hb h
      · exact hPre.dmgs y hy
    · intro j ent0 hj
      obtain ⟨entP, hP1, hPv⟩ := hPre.ents j ent0 hj
      have halive0OrDead := hPv.2.2.2.2.1
      rcases hAll j with hU | ⟨entP', h2, h3, h4, h5⟩
      · refine ⟨entP, by rw [hU]; exact hP1, hPv.1, hPv.2.1, hPv.2.2.1,
          hPv.2.2.2.1, hPv.2.2.2.2.1, ?_⟩
        intro halive0
        rcases hPv.2.2.2.2.2 halive0 with ⟨ha, hbnd⟩
        refine ⟨ha, ?_⟩
        unfold Ring.sumActiveDamage at hbnd ⊢
        rw [hsum']
        linarith [hkb.1]
      · obtain rfl := Option.some.inj (hP1.symm.trans h2)
        have hTD := takeDamage_of_alive entP hb0.damage h3 hkb.1 h4
        have halive0 : ent0.currentState ≠ "DEAD" := fun hd =>
          h3 (by rw [hPv.2.2.2.2.1 hd]; exact hd)
        refine ⟨(entP.takeDamage hb0.damage).1, h5, ?_, ?_, ?_, ?_, ?_, ?_⟩
        · rw [hTD.2.2.1, hPv.1]
        · rw [hTD.2.2.2.1, hPv.2.1]
        · rw [hTD.2.2.2.2.1, hPv.2.2.1]
        · rw [hTD.2.2.2.2.2, hPv.2.2.2.1]
        · exact fun hd => absurd hd halive0
        · intro _
          refine ⟨hTD.1, ?_⟩
          have hbnd := (hPv.2.2.2.2.2 halive0).2
          have htd2 := hTD.2.1
          unfold Ring.sumActiveDamage at hbnd ⊢
          rw [hsum']
          linarith

/-- One outer iteration of `checkCollisions` on a hitbox still untouched in
this pass produces exactly its statically predicted events. -/
theorem hitboxStep_static (kn : V3 → V3) (env : ℕ → ParentInfo)
    (s0 : CombatState)
    (hbound : ∀ (k : ℕ) (ent : ManagedEntity), s0.entities[k]? = some ent →
      ent.currentState ≠ "DEAD" → sumActiveDamage s0 < ent.health)
    (acc : CombatState × List HitEvent) (i : ℕ)
    (hPre : PassInv s0 acc.1)
    (hfresh : acc.1.hitboxes[i]? = s0.hitboxes[i]?) :
    (hitboxStep kn env acc i).2 = acc.2 ++ staticHitboxEvents s0 i ∧
    PassInv s0 (hitboxStep kn env acc i).1 ∧
    ∀ k : ℕ, k ≠ i →
      (hitboxStep kn env acc i).1.hitboxes[k]? = acc.1.hitboxes[k]? := by
  unfold Ring.hitboxStep Ring.staticHitboxEvents
  cases h0 : s0.hitboxes[i]? with
  | none =>
    rw [hfresh, h0]
    exact ⟨by simp, hPre, fun k _ => rfl⟩
  | some hb0 =>
    rw [hfresh, h0]
    dsimp only
    have h0cur : acc.1.hitboxes[i]? = some hb0 := by rw [hfresh, h0]
    by_cases hact : hb0.active = true
    · rw [if_pos hact, if_pos hact]
      have hloop := entityLoop_static kn (env i).pos s0 acc.1 i hb0 hPre
        hbound h0cur hact (List.range acc.1.entities.length) acc
        (List.nodup_range _) (fun _ _ => rfl) (Or.inl ⟨rfl, rfl⟩)
      refine ⟨?_, ?_, ?_⟩
      · rw [hloop.1, hPre.entsLen]
      · exact innerInv_to_passInv s0 acc.1 _ i hb0 hPre h0cur hact hloop.2
      · intro k hk
        exact entityLoop_hitboxes_ne kn (env i).pos i _ acc k hk
    · rw [if_neg hact, if_neg hact]
      exact ⟨by simp, hPre, fun k _ => rfl⟩

/-- The outer hitbox loop over distinct, untouched indices produces exactly
the statically predicted event list. -/
theorem checkLoop_static (kn : V3 → V3) (env : ℕ → ParentInfo)
    (s0 : CombatState)
    (hbound : ∀ (k : ℕ) (ent : ManagedEntity), s0.entities[k]? = some ent →
      ent.currentState ≠ "DEAD" → sumActiveDamage s0 < ent.health) :
    ∀ (is : List ℕ) (acc : CombatState × List HitEvent), is.Nodup →
    (∀ i ∈ is, acc.1.hitboxes[i]? = s0.hitboxes[i]?) →
    PassInv s0 acc.1 →
    (is.foldl (hitboxStep kn env) acc).2 =
      acc.2 ++ is.flatMap (staticHitboxEvents s0) ∧
    PassInv s0 (is.foldl (hitboxStep kn env) acc).1 := by
  intro is
  induction is with
  | nil => intro acc _ _ hInv; exact ⟨by simp, hInv⟩
  | cons i is ih =>
    intro acc hnd hfresh hInv
    obtain ⟨h1, h2, h3⟩ := hitboxStep_static kn env s0 hbound acc i hInv
      (hfresh i (List.mem_cons_self i is))
    have hnd' := List.nodup_cons.mp hnd
    have hfresh' : ∀ k ∈ is,
        (hitboxStep kn env acc i).1.hitboxes[k]? = s0.hitboxes[k]? := by
      intro k hk
      have hki : k ≠ i := fun h => hnd'.1 (h ▸ hk)
      rw [h3 k hki]
      exact hfresh k (List.mem_cons_of_mem i hk)
    obtain ⟨ih1, ih2⟩ := ih (hitboxStep kn env acc i) hnd'.2 hfresh' h2
    rw [List.foldl_cons]
    refine ⟨?_, ih2⟩
    rw [ih1, h1, List.flatMap_cons, List.append_assoc]

/-- C5 — confirmed.  `checkCollisions` performs the naive all-pairs pass: for
every active hitbox and every registered entity, it skips exactly the pairs
where the entity is the owner, has no model, or is DEAD, and invokes
`handleHit` for precisely the remaining pairs whose boxes intersect
(`staticHits`, all conditions evaluated on the pass-start state).  The
hypotheses pin the skip conditions to the pass-start state: hitboxes are
knockback-free with nonnegative damage, and no live entity can be brought to
zero health by the total active damage, so mid-pass deaths or knockback
displacements — which would make later pairs read an already-changed entity —
cannot occur. -/
theorem checkCollisions_matches_static (kn : V3 → V3)
    (env : ℕ → ParentInfo) (s : CombatState)
    (hkb : ∀ hb ∈ s.hitboxes, hb.knockback = 0)
    (hdmg : ∀ hb ∈ s.hitboxes, 0 ≤ hb.damage)
    (hbound : ∀ (j : ℕ) (ent : ManagedEntity), s.entities[j]? = some ent →
      ent.currentState ≠ "DEAD" → sumActiveDamage s < ent.health) :
    (checkCollisions kn env s).2 = staticHits s := by
  unfold Ring.checkCollisions Ring.staticHits
  have hInv0 : PassInv s s := by
    refine ⟨rfl, rfl, fun hb hm => ⟨hdmg hb hm, hkb hb hm⟩, ?_⟩
    intro j ent0 hj
    exact ⟨ent0, hj, rfl, rfl, rfl, rfl, fun _ => rfl,
      fun ha => ⟨ha, by simp⟩⟩
  obtain ⟨h1, _⟩ := checkLoop_static kn env s hbound
    (List.range s.hitboxes.length) (s, []) (List.nodup_range _)
    (fun _ _ => rfl) hInv0
  simpa using h1

/-- C5 — witness: the hypotheses and conclusion hold for the concrete
two-entity, one-hitbox state. -/
theorem checkCollisions_matches_static_witness :
    (checkCollisions (fun v => v) (fun _ => originParent) twoVictimState).2 =
      staticHits twoVictimState := by
  apply checkCollisions_matches_static
  · intro hb hm
    simp only [Ring.twoVictimState, List.mem_singleton] at hm
    subst hm
    rfl
  · intro hb hm
    simp only [Ring.twoVictimState, List.mem_singleton] at hm
    subst hm
    norm_num [Ring.wideHitbox]
  · intro j ent hj halive
    have hs : sumActiveDamage twoVictimState = 1 := by
      norm_num [Ring.sumActiveDamage, Ring.sumActiveDamageL,
        Ring.twoVictimState, Ring.wideHitbox]
    rw [hs]
    rcases j with _ | _ | j
    · simp only [Ring.twoVictimState, List.getElem?_cons_zero,
        Option.some.injEq] at hj
      subst hj
      norm_num [Ring.ManagedEntity.health, Ring.cubeEnemy]
    · simp only [Ring.twoVictimState, List.getElem?_cons_succ,
        List.getElem?_cons_zero, Option.some.injEq] at hj
      subst hj
      norm_num [Ring.ManagedEntity.health, Ring.cubeEnemy]
    · simp [Ring.twoVictimState] at hj

/-- C7 — counterexample.  When a fresh player attacks with a combat manager
attached, `attack()` returns with the manager unchanged — its hitbox list
still empty — and a 300 ms `setTimeout` pending: the hitbox is *not* created
during the same synchronous update in which the attack starts. -/
theorem attack_creates_no_hitbox_synchronously :
    (Ring.freshPlayer.attackStep (some Ring.emptyCombat)).2.1 =
      some Ring.emptyCombat ∧
    (Ring.freshPlayer.attackStep (some Ring.emptyCombat)).2.2 =
      [⟨300, Ring.lightAttackSpec 25⟩] ∧
    Ring.emptyCombat.hitboxes = [] := by
  refine ⟨?_, ?_, rfl⟩ <;>
  · norm_num [Ring.PlayerState.attackStep, Ring.freshPlayer,
      Ring.emptyCombat]
    simp [String.reduceEq]

/-- C7 — amended claim.  An attack that passes its guards leaves the combat
manager untouched and schedules exactly one 300 ms timer; the hitbox (with
the light attack's offset, size, damage, 0.2 s duration and knockback 2) is
appended to the manager's list only when that timer fires, between frames. -/
theorem attack_hitbox_created_by_timer :
    ∀ (p : Ring.PlayerState) (m : Ring.CombatState) (ownerIdx : Option ℕ),
    p.isAttacking = false → p.currentState ≠ "STAGGERED" →
    p.currentState ≠ "DEAD" → p.attackCooldown ≤ 0 →
    (p.attackStep (some m)).2.1 = some m ∧
    (p.attackStep (some m)).2.2 = [⟨300, Ring.lightAttackSpec p.attackPower⟩] ∧
    (Ring.fireAttackTimer ⟨300, Ring.lightAttackSpec p.attackPower⟩ ownerIdx
        m).hitboxes =
      m.hitboxes ++
        [{ id := m.hitboxes.length, offset := ⟨0, 1, -3/2⟩,
           size := ⟨3/2, 1, 2⟩, damage := p.attackPower, knockback := 2,
           duration := 1/5, timeRemaining := 1/5, collider := none,
           owner := ownerIdx, active := true }] := by
  intro p m ownerIdx h1 h2 h3 h4
  have hguard : (p.isAttacking || p.currentState == "STAGGERED" ||
      p.currentState == "DEAD" || decide (p.attackCooldown > 0)) = false := by
    simp [h1, h2, h3, not_lt.mpr h4]
  unfold Ring.PlayerState.attackStep
  rw [hguard]
  simp only [Bool.false_eq_true, if_false]
  refine ⟨by trivial, by simp, ?_⟩
  unfold Ring.fireAttackTimer Ring.CombatState.createHitbox
    Ring.lightAttackSpec
  rfl

/-- C7 — witness for the amended claim at concrete inputs. -/
theorem attack_hitbox_created_by_timer_witness :
    (Ring.freshPlayer.attackStep (some Ring.emptyCombat)).2.1 =
      some Ring.emptyCombat ∧
    (Ring.freshPlayer.attackStep (some Ring.emptyCombat)).2.2 =
      [⟨300, Ring.lightAttackSpec Ring.freshPlayer.attackPower⟩] ∧
    (Ring.fireAttackTimer
        ⟨300, Ring.lightAttackSpec Ring.freshPlayer.attackPower⟩ none
        Ring.emptyCombat).hitboxes =
      Ring.emptyCombat.hitboxes ++
        [{ id := Ring.emptyCombat.hitboxes.length, offset := ⟨0, 1, -3/2⟩,
           size := ⟨3/2, 1, 2⟩, damage := Ring.freshPlayer.attackPower,
           knockback := 2, duration := 1/5, timeRemaining := 1/5,
           collider := none, owner := none, active := true }] :=
  attack_hitbox_created_by_timer Ring.freshPlayer Ring.emptyCombat none rfl
    (by simp [Ring.freshPlayer]) (by simp [Ring.freshPlayer])
    (by norm_num [Ring.freshPlayer])

/-! ### Grass lemmas -/

theorem lookup_isSome_iff_mem_keys {β : Type} (l : List ((ℤ × ℤ) × β))
    (k : ℤ × ℤ) :
    (List.lookup k l).isSome ↔ k ∈ l.map (fun kv => kv.1) := by
  induction l with
  | nil => simp [List.lookup]
  | cons a l ih =>
    rw [List.lookup]
    by_cases h : k = a.1
    · simp [h]
    · have hb : (k == a.1) = false := by simpa using h
      rw [hb]
      simp only [List.map_cons, List.mem_cons]
      rw [ih]
      constructor
      · exact Or.inr
      · rintro (h1 | h2)
        · exact absurd h1 h
        · exact h2

theorem lookup_append_single {β : Type} (l : List ((ℤ × ℤ) × β))
    (k c : ℤ × ℤ) (p : β) :
    List.lookup k (l ++ [(c, p)]) =
      match List.lookup k l with
      | some q => some q
      | none => if k = c then some p else none := by
  induction l with
  | nil =>
    simp only [List.nil_append, List.lookup]
    by_cases h : k = c
    · have hb : (k == c) = true := by simpa using h
      rw [hb]
      simp [h]
    · have hb : (k == c) = false := by simpa using h
      rw [hb]
      simp [h]
  | cons a l ih =>
    rw [List.cons_append, List.lookup, List.lookup]
    by_cases h : k = a.1
    · have hb : (k == a.1) = true := by simpa using h
      rw [hb]
    · have hb : (k == a.1) = false := by simpa using h
      rw [hb]
      exact ih

theorem lookup_filter_ne {β : Type} (l : List ((ℤ × ℤ) × β))
    (k key : ℤ × ℤ) (h : k ≠ key) :
    List.lookup k (l.filter (fun kv => !(kv.1 == key))) =
      List.lookup k l := by
  induction l with
  | nil => rfl
  | cons a l ih =>
    rw [List.filter_cons]
    by_cases ha : a.1 = key
    · have hb : (!(a.1 == key)) = false := by simpa using ha
      rw [hb]
      have hk : (k == a.1) = false := by
        simp only [beq_eq_false_iff_ne, ne_eq]
        intro hh
        exact h (hh.trans ha)
      simp only [Bool.false_eq_true, if_false]
      rw [ih, List.lookup, hk]
    · have hb : (!(a.1 == key)) = true := by simpa using ha
      rw [hb]
      simp only [if_true]
      rw [List.lookup, List.lookup]
      cases hkk : (k == a.1)
      · exact ih
      · rfl

theorem getPatch_isSome_iff (g : GrassState) (k : ℤ × ℤ) :
    (g.getPatch k).isSome ↔ k ∈ g.activePatches.map (fun kv => kv.1) :=
  lookup_isSome_iff_mem_keys g.activePatches k

theorem createPatch_mem_keys (g : GrassState) (c k : ℤ × ℤ) :
    (k ∈ ((g.createPatch c.1 c.2).1.activePatches.map (fun kv => kv.1))) ↔
      k ∈ g.activePatches.map (fun kv => kv.1) ∨ k = c := by
  unfold Ring.GrassState.createPatch
  cases h : g.getPatch (c.1, c.2) with
  | some p =>
    dsimp only
    constructor
    · exact Or.inl
    · rintro (h1 | rfl)
      · exact h1
      · rw [← getPatch_isSome_iff]
        rw [Prod.mk.eta] at h
        rw [h]
        rfl
  | none =>
    dsimp only
    rw [List.map_append, List.mem_append]
    simp

theorem createPatch_getPatch_pres (g : GrassState) (c k : ℤ × ℤ)
    (hk : (g.getPatch k).isSome) :
    (g.createPatch c.1 c.2).1.getPatch k = g.getPatch k := by
  unfold Ring.GrassState.createPatch
  cases h : g.getPatch (c.1, c.2) with
  | some p => rfl
  | none =>
    dsimp only [Ring.GrassState.getPatch] at *
    rw [lookup_append_single]
    cases hq : List.lookup k g.activePatches with
    | some q => rfl
    | none =>
      rw [hq] at hk
      simp at hk

theorem createFold_mem_keys (cells : List (ℤ × ℤ)) :
    ∀ (g : GrassState) (k : ℤ × ℤ),
    (k ∈ ((createCellsFold cells g).activePatches.map (fun kv => kv.1))) ↔
      k ∈ g.activePatches.map (fun kv => kv.1) ∨ k ∈ cells := by
  induction cells with
  | nil => intro g k; simp [Ring.createCellsFold]
  | cons c cells ih =>
    intro g k
    unfold Ring.createCellsFold at ih ⊢
    rw [List.foldl_cons]
    by_cases h : (g.getPatch c).isSome
    · rw [if_pos h, ih]
      constructor
      · rintro (h1 | h2)
        · exact Or.inl h1
        · exact Or.inr (List.mem_cons_of_mem c h2)
      · rintro (h1 | h2)
        · exact Or.inl h1
        · rcases List.mem_cons.mp h2 with rfl | h3
          · exact Or.inl ((getPatch_isSome_iff g k).mp h)
          · exact Or.inr h3
    · rw [if_neg h, ih, createPatch_mem_keys]
      constructor
      · rintro ((h1 | rfl) | h2)
        · exact Or.inl h1
        · exact Or.inr (List.mem_cons_self _ _)
        · exact Or.inr (List.mem_cons_of_mem c h2)
      · rintro (h1 | h2)
        · exact Or.inl (Or.inl h1)
        · rcases List.mem_cons.mp h2 with rfl | h3
          · exact Or.inl (Or.inr rfl)
          · exact Or.inr h3

theorem removePatch_of_none (g : GrassState) (key : ℤ × ℤ)
    (h : g.getPatch key = none) : g.removePatch key = g := by
  unfold Ring.GrassState.removePatch
  rw [h]

theorem removePatch_mem_keys (g : GrassState) (key k : ℤ × ℤ)
    (p : GrassPatch) (hp : g.getPatch key = some p) :
    (k ∈ (g.removePatch key).activePatches.map (fun kv => kv.1)) ↔
      k ∈ g.activePatches.map (fun kv => kv.1) ∧ k ≠ key := by
  unfold Ring.GrassState.removePatch
  rw [hp]
  dsimp only
  simp only [List.mem_map, List.mem_filter, Bool.not_eq_eq_eq_not,
    Bool.not_true, beq_eq_false_iff_ne, ne_eq]
  constructor
  · rintro ⟨kv, ⟨hm, hne⟩, rfl⟩
    exact ⟨⟨kv, hm, rfl⟩, hne⟩
  · rintro ⟨⟨kv, hm, rfl⟩, hne⟩
    exact ⟨kv, ⟨hm, hne⟩, rfl⟩

theorem removeFold_mem_keys (cells : List (ℤ × ℤ)) :
    ∀ (ks : List (ℤ × ℤ)) (g : GrassState) (k : ℤ × ℤ),
    (k ∈ ((removeKeysFold cells ks g).activePatches.map (fun kv => kv.1))) ↔
      (k ∈ g.activePatches.map (fun kv => kv.1) ∧
        (k ∈ ks → cells.contains k = true)) := by
  intro ks
  induction ks with
  | nil => intro g k; simp [Ring.removeKeysFold]
  | cons key ks ih =>
    intro g k
    unfold Ring.removeKeysFold at ih ⊢
    rw [List.foldl_cons]
    by_cases hc : cells.contains key = true
    · rw [if_pos hc, ih]
      by_cases hk : k = key
      · subst hk
        constructor
        · rintro ⟨h1, _⟩
          exact ⟨h1, fun _ => hc⟩
        · rintro ⟨h1, _⟩
          exact ⟨h1, fun _ => hc⟩
      · constructor
        · rintro ⟨h1, h2⟩
          exact ⟨h1, fun hm => by
            rcases List.mem_cons.mp hm with h | h
            · exact absurd h hk
            · exact h2 h⟩
        · rintro ⟨h1, h2⟩
          exact ⟨h1, fun hm => h2 (List.mem_cons_of_mem key hm)⟩
    · rw [if_neg hc, ih]
      have hmem : ∀ k',
          (k' ∈ (g.removePatch key).activePatches.map (fun kv => kv.1)) ↔
          (k' ∈ g.activePatches.map (fun kv => kv.1) ∧ k' ≠ key) := by
        intro k'
        cases hp : g.getPatch key with
        | none =>
          rw [removePatch_of_none g key hp]
          constructor
          · intro h
            refine ⟨h, ?_⟩
            rintro rfl
            rw [← getPatch_isSome_iff] at h
            rw [hp] at h
            simp at h
          · exact fun h => h.1
        | some p => exact removePatch_mem_keys g key k' p hp
      rw [hmem k]
      by_cases hk : k = key
      · subst hk
        constructor
        · rintro ⟨⟨_, hne⟩, _⟩
          exact absurd rfl hne
        · rintro ⟨h1, h2⟩
          exact absurd (h2 (List.mem_cons_self k ks)) hc
      · constructor
        · rintro ⟨⟨h1, _⟩, h2⟩
          exact ⟨h1, fun hm => by
            rcases List.mem_cons.mp hm with h | h
            · exact absurd h hk
            · exact h2 h⟩
        · rintro ⟨h1, h2⟩
          exact ⟨⟨h1, hk⟩, fun hm => h2 (List.mem_cons_of_mem key hm)⟩

theorem mem_gridCellsAround (gs pgx pgz : ℤ) (k : ℤ × ℤ) :
    k ∈ gridCellsAround gs pgx pgz ↔
      0 ≤ k.1 ∧ k.1 < gs ∧ 0 ≤ k.2 ∧ k.2 < gs ∧
        |k.1 - pgx| ≤ 2 ∧ |k.2 - pgz| ≤ 2 := by
  unfold Ring.gridCellsAround
  rw [List.mem_flatMap]
  constructor
  · rintro ⟨dx, hdx, hk⟩
    rw [List.mem_filterMap] at hk
    rcases hk with ⟨dz, hdz, hif⟩
    split_ifs at hif with hb
    · obtain rfl := Option.some.inj hif
      have hdx' : -2 ≤ dx ∧ dx ≤ 2 := by
        simp only [List.mem_cons, List.not_mem_nil, or_false] at hdx
        omega
      have hdz' : -2 ≤ dz ∧ dz ≤ 2 := by
        simp only [List.mem_cons, List.not_mem_nil, or_false] at hdz
        omega
      refine ⟨hb.1, hb.2.1, hb.2.2.1, hb.2.2.2, ?_, ?_⟩ <;>
        simp only [abs_le] <;> constructor <;> omega
  · rintro ⟨h1, h2, h3, h4, h5, h6⟩
    rw [abs_le] at h5 h6
    refine ⟨k.1 - pgx, ?_, ?_⟩
    · have : k.1 - pgx = -2 ∨ k.1 - pgx = -1 ∨ k.1 - pgx = 0 ∨
          k.1 - pgx = 1 ∨ k.1 - pgx = 2 := by omega
      rcases this with h | h | h | h | h <;> rw [h] <;> simp
    · rw [List.mem_filterMap]
      refine ⟨k.2 - pgz, ?_, ?_⟩
      · have : k.2 - pgz = -2 ∨ k.2 - pgz = -1 ∨ k.2 - pgz = 0 ∨
            k.2 - pgz = 1 ∨ k.2 - pgz = 2 := by omega
        rcases this with h | h | h | h | h <;> rw [h] <;> simp
      · have hc1 : pgx + (k.1 - pgx) = k.1 := by omega
        have hc2 : pgz + (k.2 - pgz) = k.2 := by omega
        rw [hc1, hc2]
        rw [if_pos ⟨h1, h2, h3, h4⟩, Prod.mk.eta]

theorem createPatch_WF (g : GrassState) (gx gz : ℤ) (h : GrassWF g) :
    GrassWF (g.createPatch gx gz).1 := by
  unfold Ring.GrassState.createPatch
  cases hg : g.getPatch (gx, gz) with
  | some p => exact h
  | none =>
    obtain ⟨h1, h2, h3⟩ := h
    dsimp only [Ring.GrassWF]
    refine ⟨?_, ?_, ?_⟩
    · rw [List.nodup_append]
      refine ⟨h1, by simp, ?_⟩
      intro a ha hb
      have hlt := h2 a ha
      simp only [List.mem_cons, List.not_mem_nil, or_false] at hb
      omega
    · intro id hid
      rw [List.mem_append] at hid
      rcases hid with hid | hid
      · have := h2 id hid
        omega
      · simp only [List.mem_cons, List.not_mem_nil, or_false] at hid
        omega
    · rw [List.map_append]
      rw [List.nodup_append]
      refine ⟨h3, by simp, ?_⟩
      intro a ha hb
      simp only [List.map_cons, List.map_nil, List.mem_cons,
        List.not_mem_nil, or_false] at hb
      subst hb
      have : ((g.getPatch (gx, gz)).isSome : Prop) :=
        (getPatch_isSome_iff g (gx, gz)).mpr ha
      rw [hg] at this
      simp at this

theorem createFold_WF (cells : List (ℤ × ℤ)) :
    ∀ g : GrassState, GrassWF g → GrassWF (createCellsFold cells g) := by
  induction cells with
  | nil => intro g h; exact h
  | cons c cells ih =>
    intro g h
    unfold Ring.createCellsFold at ih ⊢
    rw [List.foldl_cons]
    by_cases hc : (g.getPatch c).isSome
    · rw [if_pos hc]
      exact ih g h
    · rw [if_neg hc]
      exact ih _ (createPatch_WF g c.1 c.2 h)

theorem createFold_getPatch_pres (cells : List (ℤ × ℤ)) :
    ∀ (g : GrassState) (k : ℤ × ℤ), (g.getPatch k).isSome →
    (createCellsFold cells g).getPatch k = g.getPatch k := by
  induction cells with
  | nil => intro g k _; rfl
  | cons c cells ih =>
    intro g k hk
    unfold Ring.createCellsFold at ih ⊢
    rw [List.foldl_cons]
    by_cases hc : (g.getPatch c).isSome
    · rw [if_pos hc]
      exact ih g k hk
    · rw [if_neg hc]
      have hpres := createPatch_getPatch_pres g c k hk
      rw [ih _ k (by rw [hpres]; exact hk), hpres]

theorem removePatch_scene_nodup (g : GrassState) (key : ℤ × ℤ)
    (h : g.scene.Nodup) : (g.removePatch key).scene.Nodup := by
  unfold Ring.GrassState.removePatch
  cases hq : g.getPatch key with
  | none => exact h
  | some q => exact (h.erase q.mesh).erase q.debugMarker

theorem removePatch_getPatch_ne (g : GrassState) (key k : ℤ × ℤ)
    (h : k ≠ key) : (g.removePatch key).getPatch k = g.getPatch k := by
  unfold Ring.GrassState.removePatch
  cases hq : g.getPatch key with
  | none => rfl
  | some q =>
    dsimp only [Ring.GrassState.getPatch]
    exact lookup_filter_ne g.activePatches k key h

theorem mem_scene_removePatch (g : GrassState) (key : ℤ × ℤ) (id : ℕ)
    (h : id ∈ (g.removePatch key).scene) : id ∈ g.scene := by
  unfold Ring.GrassState.removePatch at h
  cases hq : g.getPatch key with
  | none => rw [hq] at h; exact h
  | some q =>
    rw [hq] at h
    dsimp only at h
    exact List.mem_of_mem_erase (List.mem_of_mem_erase h)

theorem removeFold_scene_mono (cells : List (ℤ × ℤ)) :
    ∀ (ks : List (ℤ × ℤ)) (g : GrassState) (id : ℕ),
    id ∈ (removeKeysFold cells ks g).scene → id ∈ g.scene := by
  intro ks
  induction ks with
  | nil => intro g id h; exact h
  | cons key ks ih =>
    intro g id h
    unfold Ring.removeKeysFold at ih h
    rw [List.foldl_cons] at h
    by_cases hc : cells.contains key = true
    · rw [if_pos hc] at h
      exact ih g id h
    · rw [if_neg hc] at h
      exact mem_scene_removePatch g key id (ih _ id h)

theorem removeFold_not_mem_scene (cells : List (ℤ × ℤ)) :
    ∀ (ks : List (ℤ × ℤ)) (g : GrassState) (k : ℤ × ℤ) (p : GrassPatch),
    g.scene.Nodup → g.getPatch k = some p → k ∈ ks →
    cells.contains k = false →
    p.mesh ∉ (removeKeysFold cells ks g).scene ∧
    p.debugMarker ∉ (removeKeysFold cells ks g).scene := by
  intro ks
  induction ks with
  | nil =>
    intro g k p _ _ hk _
    exact absurd hk (List.not_mem_nil k)
  | cons key ks ih =>
    intro g k p hnd hp hk hc
    unfold Ring.removeKeysFold at ih ⊢
    rw [List.foldl_cons]
    by_cases hkey : k = key
    · subst hkey
      rw [if_neg (by rw [hc]; exact Bool.false_ne_true)]
      have hscene : (g.removePatch k).scene =
          (g.scene.erase p.mesh).erase p.debugMarker := by
        unfold Ring.GrassState.removePatch
        rw [hp]
      constructor
      · intro hmem
        have hmem2 := removeFold_scene_mono cells ks (g.removePatch k)
          p.mesh hmem
        rw [hscene] at hmem2
        have hmem3 := List.mem_of_mem_erase hmem2
        have := (hnd.mem_erase_iff.mp hmem3).1
        exact this rfl
      · intro hmem
        have hmem2 := removeFold_scene_mono cells ks (g.removePatch k)
          p.debugMarker hmem
        rw [hscene] at hmem2
        have := ((hnd.erase p.mesh).mem_erase_iff.mp hmem2).1
        exact this rfl
    · have hk' : k ∈ ks := by
        rcases List.mem_cons.mp hk with h | h
        · exact absurd h hkey
        · exact h
      by_cases hck : cells.contains key = true
      · rw [if_pos hck]
        exact ih g k p hnd hp hk' hc
      · rw [if_neg hck]
        exact ih (g.removePatch key) k p
          (removePatch_scene_nodup g key hnd)
          (by rw [removePatch_getPatch_ne g key k hkey]; exact hp)
          hk' hc

/-- C8 — `GrassComponent.createPatch` is idempotent: when a patch for
`(gx, gz)` is already registered, the call returns that existing patch and
the whole component state (active-patch map, scene contents, every existing
patch) is unchanged. -/
theorem createPatch_idempotent (g : GrassState) (gx gz : ℤ)
    (p : GrassPatch) (h : g.getPatch (gx, gz) = some p) :
    g.createPatch gx gz = (g, some p) := by
  unfold Ring.GrassState.createPatch
  rw [h]

theorem createPatch_idempotent_witness :
    sampleGrass.getPatch (1, 1) = some ⟨1, 0, 1, 1, -45, -45⟩ ∧
    sampleGrass.createPatch 1 1 =
      (sampleGrass, some ⟨1, 0, 1, 1, -45, -45⟩) :=
  ⟨rfl, createPatch_idempotent sampleGrass 1 1 ⟨1, 0, 1, 1, -45, -45⟩ rfl⟩

theorem clamp01_ne (u : ℚ) (h : u < 0 ∨ 1 < u) : max 0 (min 1 u) ≠ u := by
  rcases h with h | h
  · rw [min_eq_right (by linarith), max_eq_left (by linarith)]
    exact ne_of_gt h
  · rw [min_eq_left (by linarith), max_eq_right (by linarith)]
    exact ne_of_lt h

/-- C9 — out-of-bounds samples hit the clamp guard: with a heightmap present
and a positive terrain size, any world position strictly outside the terrain
bounds makes `PlayerEntity.sampleHeight` return exactly `minHeight` and
`GrassComponent.sampleHeight` return exactly `minHeight + heightOffset`. -/
theorem sampleHeight_out_of_bounds :
    (∀ (t : PlayerTerrain) (sinQ cosQ : ℚ → ℚ) (x z : ℚ),
      t.heightmapPresent = true → 0 < t.terrainSize →
      (x < -t.terrainSize / 2 ∨ t.terrainSize / 2 < x ∨
        z < -t.terrainSize / 2 ∨ t.terrainSize / 2 < z) →
      playerSampleHeight t sinQ cosQ x z = t.minHeight) ∧
    (∀ (g : GrassState) (sinQ cosQ : ℚ → ℚ) (x z : ℚ),
      g.heightMapPresent = true → 0 < g.terrainSize →
      (x < -g.terrainSize / 2 ∨ g.terrainSize / 2 < x ∨
        z < -g.terrainSize / 2 ∨ g.terrainSize / 2 < z) →
      g.sampleHeight sinQ cosQ x z = g.minHeight + g.heightOffset) := by
  constructor
  · intro t sinQ cosQ x z hp hts hout
    have hcond :
        (x + t.terrainSize / 2) / t.terrainSize ≠
          max 0 (min 1 ((x + t.terrainSize / 2) / t.terrainSize)) ∨
        (z + t.terrainSize / 2) / t.terrainSize ≠
          max 0 (min 1 ((z + t.terrainSize / 2) / t.terrainSize)) := by
      rcases hout with h | h | h | h
      · exact Or.inl (clamp01_ne _
          (Or.inl (div_neg_of_neg_of_pos (by linarith) hts))).symm
      · exact Or.inl (clamp01_ne _
          (Or.inr ((one_lt_div hts).mpr (by linarith)))).symm
      · exact Or.inr (clamp01_ne _
          (Or.inl (div_neg_of_neg_of_pos (by linarith) hts))).symm
      · exact Or.inr (clamp01_ne _
          (Or.inr ((one_lt_div hts).mpr (by linarith)))).symm
    unfold Ring.playerSampleHeight
    rw [hp]
    simp only [Bool.not_true, Bool.false_eq_true, if_false]
    rw [if_pos hcond]
  · intro g sinQ cosQ x z hp hts hout
    have hcond :
        (x + g.terrainSize / 2) / g.terrainSize ≠
          max 0 (min 1 ((x + g.terrainSize / 2) / g.terrainSize)) ∨
        (z + g.terrainSize / 2) / g.terrainSize ≠
          max 0 (min 1 ((z + g.terrainSize / 2) / g.terrainSize)) := by
      rcases hout with h | h | h | h
      · exact Or.inl (clamp01_ne _
          (Or.inl (div_neg_of_neg_of_pos (by linarith) hts))).symm
      · exact Or.inl (clamp01_ne _
          (Or.inr ((one_lt_div hts).mpr (by linarith)))).symm
      · exact Or.inr (clamp01_ne _
          (Or.inl (div_neg_of_neg_of_pos (by linarith) hts))).symm
      · exact Or.inr (clamp01_ne _
          (Or.inr ((one_lt_div hts).mpr (by linarith)))).symm
    unfold Ring.GrassState.sampleHeight
    rw [hp]
    simp only [Bool.not_true, Bool.false_eq_true, if_false]
    rw [if_pos hcond]

theorem sampleHeight_out_of_bounds_witness :
    playerSampleHeight samplePT (fun q => q) (fun q => q) 60 0 =
      samplePT.minHeight ∧
    sampleGrass.sampleHeight (fun q => q) (fun q => q) 60 0 =
      sampleGrass.minHeight + sampleGrass.heightOffset :=
  ⟨sampleHeight_out_of_bounds.1 samplePT (fun q => q) (fun q => q) 60 0
      rfl (by norm_num [Ring.samplePT])
      (Or.inr (Or.inl (by norm_num [Ring.samplePT]))),
    sampleHeight_out_of_bounds.2 sampleGrass (fun q => q) (fun q => q) 60 0
      rfl (by norm_num [Ring.sampleGrass])
      (Or.inr (Or.inl (by norm_num [Ring.sampleGrass])))⟩

/-- C3 — `GrassComponent.updatePatches` with a player present: afterwards a
key is in `activePatches` exactly when it is an in-grid cell within Chebyshev
distance 2 (render distance) of the player's grid cell, and every previously
active patch outside that set is gone from the map and its mesh and debug
marker are gone from the scene (assuming the well-formedness invariant that
scene ids are distinct and below the id counter and map keys are distinct). -/
theorem updatePatches_spec (g : GrassState) (pos : V3) (px pz : ℤ)
    (hp : g.playerObject = some pos) (hwf : GrassWF g)
    (hpx : px = ⌊(pos.x + g.terrainSize / 2) / g.patchSize⌋)
    (hpz : pz = ⌊(pos.z + g.terrainSize / 2) / g.patchSize⌋) :
    (∀ k : ℤ × ℤ,
      (k ∈ g.updatePatches.activePatches.map (fun kv => kv.1)) ↔
        (0 ≤ k.1 ∧ k.1 < g.gridSize ∧ 0 ≤ k.2 ∧ k.2 < g.gridSize ∧
          |k.1 - px| ≤ 2 ∧ |k.2 - pz| ≤ 2)) ∧
    (∀ (k : ℤ × ℤ) (p : GrassPatch),
      g.getPatch k = some p →
      ¬(0 ≤ k.1 ∧ k.1 < g.gridSize ∧ 0 ≤ k.2 ∧ k.2 < g.gridSize ∧
          |k.1 - px| ≤ 2 ∧ |k.2 - pz| ≤ 2) →
      g.updatePatches.getPatch k = none ∧
      p.mesh ∉ g.updatePatches.scene ∧
      p.debugMarker ∉ g.updatePatches.scene) := by
  have hupd : g.updatePatches =
      removeKeysFold (gridCellsAround g.gridSize px pz)
        (List.map (fun kv => kv.1)
          (createCellsFold (gridCellsAround g.gridSize px pz)
            (g.createPatch px pz).1).activePatches)
        (createCellsFold (gridCellsAround g.gridSize px pz)
          (g.createPatch px pz).1) := by
    unfold Ring.GrassState.updatePatches
    rw [hp]
    dsimp only
    rw [← hpx, ← hpz]
  have hK : ∀ k : ℤ × ℤ,
      (k ∈ g.updatePatches.activePatches.map (fun kv => kv.1)) ↔
        (0 ≤ k.1 ∧ k.1 < g.gridSize ∧ 0 ≤ k.2 ∧ k.2 < g.gridSize ∧
          |k.1 - px| ≤ 2 ∧ |k.2 - pz| ≤ 2) := by
    intro k
    rw [hupd]
    rw [removeFold_mem_keys]
    constructor
    · rintro ⟨hmem, himp⟩
      have hc := himp hmem
      exact (mem_gridCellsAround g.gridSize px pz k).mp ((List.elem_iff).mp hc)
    · intro hb
      have hcell : k ∈ gridCellsAround g.gridSize px pz :=
        (mem_gridCellsAround g.gridSize px pz k).mpr hb
      refine ⟨?_, fun _ => (List.elem_iff).mpr hcell⟩
      rw [createFold_mem_keys]
      exact Or.inr hcell
  refine ⟨hK, ?_⟩
  intro k p hkp hout
  have hkeys : k ∉ g.updatePatches.activePatches.map (fun kv => kv.1) :=
    fun hm => hout ((hK k).mp hm)
  refine ⟨?_, ?_⟩
  · cases hres : g.updatePatches.getPatch k with
    | none => rfl
    | some q =>
      exfalso
      apply hkeys
      rw [← getPatch_isSome_iff, hres]
      rfl
  · have hg1wf := createPatch_WF g px pz hwf
    have hg2wf := createFold_WF (gridCellsAround g.gridSize px pz) _ hg1wf
    obtain ⟨hnd2, _, _⟩ := hg2wf
    have hg1p : (g.createPatch px pz).1.getPatch k = some p := by
      have hpr := createPatch_getPatch_pres g (px, pz) k (by rw [hkp]; rfl)
      exact hpr.trans hkp
    have hg2p : (createCellsFold (gridCellsAround g.gridSize px pz)
        (g.createPatch px pz).1).getPatch k = some p := by
      rw [createFold_getPatch_pres _ _ k (by rw [hg1p]; rfl)]
      exact hg1p
    have hkin : k ∈ List.map (fun kv => kv.1)
        (createCellsFold (gridCellsAround g.gridSize px pz)
          (g.createPatch px pz).1).activePatches := by
      rw [← getPatch_isSome_iff, hg2p]
      rfl
    have hnc : (gridCellsAround g.gridSize px pz).contains k = false := by
      cases hcc : (gridCellsAround g.gridSize px pz).contains k
      · rfl
      · exact absurd
          ((mem_gridCellsAround g.gridSize px pz k).mp
            ((List.elem_iff).mp hcc)) hout
    have hfin := removeFold_not_mem_scene (gridCellsAround g.gridSize px pz)
      (List.map (fun kv => kv.1)
        (createCellsFold (gridCellsAround g.gridSize px pz)
          (g.createPatch px pz).1).activePatches)
      (createCellsFold (gridCellsAround g.gridSize px pz)
        (g.createPatch px pz).1)
      k p hnd2 hg2p hkin hnc
    rw [hupd]
    exact hfin

theorem updatePatches_spec_witness :
    sampleGrass.updatePatches.getPatch (1, 1) = none ∧
    1 ∉ sampleGrass.updatePatches.scene ∧
    0 ∉ sampleGrass.updatePatches.scene :=
  (updatePatches_spec sampleGrass ⟨0, 0, 0⟩ 5 5 rfl
      ⟨by decide, by decide, by decide⟩
      (by norm_num [Ring.sampleGrass])
      (by norm_num [Ring.sampleGrass])).2
    (1, 1) ⟨1, 0, 1, 1, -45, -45⟩ rfl (by decide)

/-- C4 — counterexample.  The grass LOD switch has no hysteresis: the next
value of a mesh's `isLowDetail` flag is the same function of camera distance
regardless of the current level, so the high→low switch distance and the
low→high switch distance are both exactly `GRASS_LOD_DIST`; a mesh whose
distance alternates across the boundary (7 + 1/100, then 7) flips level on
both frames. -/
theorem lod_no_hysteresis :
    (∀ d : ℚ, updateLODNext true d = updateLODNext false d) ∧
    updateLODNext false (7 + 1/100) = true ∧
    updateLODNext true (7 + 1/100) = true ∧
    updateLODNext true 7 = false ∧
    updateLODNext false 7 = false ∧
    updateLODNext (updateLODNext false (7 + 1/100)) 7 = false := by
  refine ⟨?_, ?_, ?_, ?_, ?_, ?_⟩
  · intro d
    unfold Ring.updateLODNext
    dsimp only
    by_cases h : d > GRASS_LOD_DIST
    · simp [h]
    · simp [h]
  all_goals
    unfold Ring.updateLODNext Ring.GRASS_LOD_DIST
    norm_num

/-- C4 — amended claim.  Both `createMesh` and each `updateLOD` pass compute
the LOD level as the single comparison `distToCamera > GRASS_LOD_DIST`
(with `GRASS_LOD_DIST = 7`), for every current level: there is one shared
threshold in both switch directions, not two distinct ones. -/
theorem updateLOD_single_threshold :
    ∀ (isLow : Bool) (d : ℚ),
      updateLODNext isLow d = decide (d > GRASS_LOD_DIST) ∧
      createMeshIsLowDetail d = decide (d > GRASS_LOD_DIST) := by
  intro isLow d
  refine ⟨?_, rfl⟩
  unfold Ring.updateLODNext
  dsimp only
  by_cases h : d > GRASS_LOD_DIST
  · simp [h]
  · simp [h]

theorem foldl_fix {α β : Type} (f : α → β → α) (l : List β)
    (h : ∀ a b, b ∈ l → f a b = a) : ∀ a, l.foldl f a = a := by
  induction l with
  | nil => intro a; rfl
  | cons x l ih =>
    intro a
    rw [List.foldl_cons, h a x (List.mem_cons_self x l)]
    exact ih (fun a b hb => h a b (List.mem_cons_of_mem x hb)) a

theorem swapT_self (p : ℕ → ℕ) (i : ℕ) : swapT p i i = p := by
  funext k
  unfold swapT
  by_cases h : k = i
  · subst h
    simp
  · simp [h]

theorem permSwapsA : permSwaps streamA = permInit := by
  unfold permSwaps
  apply foldl_fix
  intro p i _
  have h0 : (⌊streamA i * (256 - (i : ℚ))⌋).toNat = 0 := by
    simp [streamA]
  rw [h0, Nat.add_zero, swapT_self]

theorem permSwapsB : permSwaps streamB =
    swapT (swapT permInit 0 100) 1 100 := by
  unfold permSwaps
  have hstep : ∀ n, 2 ≤ n →
      (List.range n).foldl
        (fun p i => swapT p i (i + (⌊streamB i * (256 - (i : ℚ))⌋).toNat))
        permInit =
      (List.range 2).foldl
        (fun p i => swapT p i (i + (⌊streamB i * (256 - (i : ℚ))⌋).toNat))
        permInit := by
    intro n hn
    induction n with
    | zero => omega
    | succ m ih =>
      by_cases hm : 2 ≤ m
      · rw [List.range_succ, List.foldl_append, ih hm]
        dsimp only [List.foldl]
        have hz : (⌊streamB m * (256 - (m : ℚ))⌋).toNat = 0 := by
          have h1 : streamB m = 0 := by
            unfold streamB
            rw [if_neg (by omega), if_neg (by omega)]
          rw [h1]
          simp
        rw [hz, Nat.add_zero, swapT_self]
      · have h2 : m + 1 = 2 := by omega
        rw [h2]
  rw [hstep 255 (by norm_num)]
  have hr2 : List.range 2 = [0, 1] := by decide
  rw [hr2]
  dsimp only [List.foldl]
  have e0 : ((0 : ℕ) + (⌊streamB 0 * (256 - ((0 : ℕ) : ℚ))⌋).toNat) = 100 := by
    unfold streamB
    norm_num
    omega
  have e1 : ((1 : ℕ) + (⌊streamB 1 * (256 - ((1 : ℕ) : ℚ))⌋).toNat) = 100 := by
    unfold streamB
    norm_num
    omega
  rw [e0, e1]

theorem permA0 : buildPermutationTable streamA 0 = 0 := by
  unfold buildPermutationTable
  rw [permSwapsA]
  simp [permInit]

theorem permB0 : buildPermutationTable streamB 0 = 100 := by
  unfold buildPermutationTable
  rw [permSwapsB]
  simp [swapT, permInit]

theorem permB100 : buildPermutationTable streamB 100 = 1 := by
  unfold buildPermutationTable
  rw [permSwapsB]
  simp [swapT, permInit]

theorem noise00 (perm : ℕ → ℕ) :
    noise2D perm (QS.ofQ 0) (QS.ofQ 0) = QS.ofQ 0 := by
  unfold noise2D
  norm_num [QS.add, QS.sub, QS.mul, QS.ofQ, QS.lt, QS.pos, QS.nonneg,
    QS.floor, QS.divQ, sqrt3FloorQ, F2, G2, Nat.sqrt]

theorem noiseA1 :
    noise2D (buildPermutationTable streamA) (QS.ofQ (1/200)) (QS.ofQ 0) =
      QS.ofQ (1119776016799440007/51200000000000000000) := by
  unfold noise2D
  norm_num [QS.add, QS.sub, QS.mul, QS.ofQ, QS.lt, QS.pos, QS.nonneg,
    QS.floor, QS.divQ, sqrt3FloorQ, F2, G2, grad2x, grad2y, grad2,
    permA0, Nat.sqrt]

theorem noiseA2 :
    noise2D (buildPermutationTable streamA) (QS.ofQ (1/100)) (QS.ofQ 0) =
      QS.ofQ (4371501049860007/100000000000000000) := by
  unfold noise2D
  norm_num [QS.add, QS.sub, QS.mul, QS.ofQ, QS.lt, QS.pos, QS.nonneg,
    QS.floor, QS.divQ, sqrt3FloorQ, F2, G2, grad2x, grad2y, grad2,
    permA0, Nat.sqrt]

theorem noiseA3 :
    noise2D (buildPermutationTable streamA) (QS.ofQ (1/50)) (QS.ofQ 0) =
      QS.ofQ (17035221840007/195312500000000) := by
  unfold noise2D
  norm_num [QS.add, QS.sub, QS.mul, QS.ofQ, QS.lt, QS.pos, QS.nonneg,
    QS.floor, QS.divQ, sqrt3FloorQ, F2, G2, grad2x, grad2y, grad2,
    permA0, Nat.sqrt]

theorem noiseA4 :
    noise2D (buildPermutationTable streamA) (QS.ofQ (1/25)) (QS.ofQ 0) =
      QS.ofQ (1054508844487/6103515625000) := by
  unfold noise2D
  norm_num [QS.add, QS.sub, QS.mul, QS.ofQ, QS.lt, QS.pos, QS.nonneg,
    QS.floor, QS.divQ, sqrt3FloorQ, F2, G2, grad2x, grad2y, grad2,
    permA0, Nat.sqrt]

theorem noiseB1 :
    noise2D (buildPermutationTable streamB) (QS.ofQ (1/200)) (QS.ofQ 0) =
      QS.ofQ (-(1119776016799440007/51200000000000000000)) := by
  unfold noise2D
  norm_num [QS.add, QS.sub, QS.mul, QS.ofQ, QS.lt, QS.pos, QS.nonneg,
    QS.floor, QS.divQ, sqrt3FloorQ, F2, G2, grad2x, grad2y, grad2,
    permB0, permB100, Nat.sqrt]

theorem noiseB2 :
    noise2D (buildPermutationTable streamB) (QS.ofQ (1/100)) (QS.ofQ 0) =
      QS.ofQ (-(4371501049860007/100000000000000000)) := by
  unfold noise2D
  norm_num [QS.add, QS.sub, QS.mul, QS.ofQ, QS.lt, QS.pos, QS.nonneg,
    QS.floor, QS.divQ, sqrt3FloorQ, F2, G2, grad2x, grad2y, grad2,
    permB0, permB100, Nat.sqrt]

theorem noiseB3 :
    noise2D (buildPermutationTable streamB) (QS.ofQ (1/50)) (QS.ofQ 0) =
      QS.ofQ (-(17035221840007/195312500000000)) := by
  unfold noise2D
  norm_num [QS.add, QS.sub, QS.mul, QS.ofQ, QS.lt, QS.pos, QS.nonneg,
    QS.floor, QS.divQ, sqrt3FloorQ, F2, G2, grad2x, grad2y, grad2,
    permB0, permB100, Nat.sqrt]

theorem noiseB4 :
    noise2D (buildPermutationTable streamB) (QS.ofQ (1/25)) (QS.ofQ 0) =
      QS.ofQ (-(1054508844487/6103515625000)) := by
  unfold noise2D
  norm_num [QS.add, QS.sub, QS.mul, QS.ofQ, QS.lt, QS.pos, QS.nonneg,
    QS.floor, QS.divQ, sqrt3FloorQ, F2, G2, grad2x, grad2y, grad2,
    permB0, permB100, Nat.sqrt]

theorem heightmapA_eval :
    generateHeightmapSimplex streamA 2 1 (1/200) 10 4 (1/2) =
      [QS.ofQ 0, QS.ofQ (4461033250187101063/9600000000000000000)] := by
  unfold generateHeightmapSimplex
  have hr1 : List.range 1 = [0] := by decide
  have hr2 : List.range 2 = [0, 1] := by decide
  have hr4 : List.range 4 = [0, 1, 2, 3] := by decide
  rw [hr1, hr2, hr4]
  simp only [List.flatMap_cons, List.flatMap_nil, List.map_cons,
    List.map_nil, List.foldl_cons, List.foldl_nil, List.append_nil]
  norm_num
  rw [noise00, noiseA1, noiseA2, noiseA3, noiseA4]
  norm_num [QS.add, QS.mul, QS.ofQ, QS.divQ]

theorem heightmapB_eval :
    generateHeightmapSimplex streamB 2 1 (1/200) 10 4 (1/2) =
      [QS.ofQ 0, QS.ofQ (-(4461033250187101063/9600000000000000000))] := by
  unfold generateHeightmapSimplex
  have hr1 : List.range 1 = [0] := by decide
  have hr2 : List.range 2 = [0, 1] := by decide
  have hr4 : List.range 4 = [0, 1, 2, 3] := by decide
  rw [hr1, hr2, hr4]
  simp only [List.flatMap_cons, List.flatMap_nil, List.map_cons,
    List.map_nil, List.foldl_cons, List.foldl_nil, List.append_nil]
  norm_num
  rw [noise00, noiseB1, noiseB2, noiseB3, noiseB4]
  norm_num [QS.add, QS.mul, QS.ofQ, QS.divQ]

/-- C6 — amended claim, pure part.  The sine-noise `generateHeightmap`
variant reads no hidden mutable or random state: its output is the same for
any two states of the `Math.random` stream (and hence identical across
calls with identical arguments). -/
theorem sine_heightmap_pure (sinQ cosQ : ℚ → ℚ) (powQ : ℚ → ℚ → ℚ)
    (r1 r2 : ℕ → ℚ) (size : ℕ) (scale elevation : ℚ) (iterations : ℕ) :
    generateHeightmapSine sinQ cosQ powQ r1 size scale elevation iterations =
    generateHeightmapSine sinQ cosQ powQ r2 size scale elevation
      iterations := rfl

/-- C6 — counterexample.  The simplex-noise `generateHeightmap` variant is
not a pure function of its arguments: it builds its noise function with
`createNoise2D()` seeded from `Math.random`, and two different hidden
random streams (all-zeros versus one that permutes the gradient table)
produce different height arrays for the same arguments
(width 2, length 1, and the default scale/amplitude/octaves/persistence):
the entries at index 1 are opposite nonzero rationals. -/
theorem simplex_heightmap_random_dependent :
    generateHeightmapSimplex streamA 2 1 (1/200) 10 4 (1/2) ≠
    generateHeightmapSimplex streamB 2 1 (1/200) 10 4 (1/2) := by
  rw [heightmapA_eval, heightmapB_eval]
  simp only [ne_eq, List.cons.injEq, QS.ofQ, QS.mk.injEq]
  norm_num

end Ring
